import Mathlib

/-!
Shallow embedding of the tender-service versioned entity engine.

The Go repository stores tenders and bids in PostgreSQL tables (`tender`,
`tender_history`, `bid`, `bid_history`, `bid_review`, `employee`,
`organization_responsible`).  We model the database as explicit lists of
rows and each repository/service function as a state-passing function
`Database → ... → Database × Except RepoError α`: the Go code issues its
SQL statements one by one with no surrounding transaction, so a mutation
performed before an error return stays visible in the returned state,
exactly as it stays committed in PostgreSQL.

Strings stay strings (the Go status/serviceType enums are typed string
aliases with constant values, and casts between them are identity).
Versions are `Int` (Go `int32`/SQL INTEGER; no modelled trace approaches
overflow).  Timestamps are opaque `Nat` values.  `uuid.New()` and
`time.Now()` are effects, so creation takes the fresh id / timestamp as
explicit parameters.
-/

namespace models

/-- Live/history row of the `tender` and `tender_history` tables
(`models.Tender` in the Go source; both tables have the same columns). -/
structure Tender where
  id : String
  name : String
  description : String
  serviceType : String
  status : String
  organizationId : String
  version : Int
  createdAt : Nat
  creatorUsername : String
deriving Repr, DecidableEq

/-- Row of the `bid` table (`models.Bid`). -/
structure Bid where
  id : String
  name : String
  description : String
  status : String
  tenderId : String
  authorType : String
  authorId : String
  version : Int
  createdAt : Nat
deriving Repr, DecidableEq

/-- Row of the `bid_history` table: unlike `tender_history` it has no
`tender_id` column (columns: bid_id, name, description, status,
author_type, author_id, version, created_at). -/
structure BidHistoryRow where
  bidId : String
  name : String
  description : String
  status : String
  authorType : String
  authorId : String
  version : Int
  createdAt : Nat
deriving Repr, DecidableEq

/-- Row of the `bid_review` table (`models.BidReview`). -/
structure BidReview where
  id : String
  bidId : String
  description : String
  createdAt : Nat
deriving Repr, DecidableEq

/-- Row of the `employee` table (only the columns the engine reads). -/
structure Employee where
  id : String
  username : String
deriving Repr, DecidableEq

/-- Row of the `organization_responsible` table. -/
structure OrgResponsible where
  userId : String
  organizationId : String
deriving Repr, DecidableEq

/-- `models.TenderRequest`: payload of tender creation. -/
structure TenderRequest where
  name : String
  description : String
  serviceType : String
  organizationId : String
  creatorUsername : String
deriving Repr, DecidableEq

/-- `models.BidRequest`: payload of bid creation. -/
structure BidRequest where
  name : String
  description : String
  tenderId : String
  authorType : String
  authorId : String
deriving Repr, DecidableEq

/-- Outcome of a repository/service call.  `errResp` is
`models.ErrorResponse` (HTTP status code plus message); `noRows` is the
raw pgx "no rows in result set" error a `QueryRow().Scan` returns when
the query matches nothing; `execFailed` stands for an injected store
failure of a single `Exec` (used to express atomicity questions). -/
inductive RepoError where
  | noRows
  | execFailed
  | errResp (statusCode : Nat) (message : String)
deriving Repr, DecidableEq

end models

open models

/-- The whole database state: one list of rows per table. -/
structure Database where
  tenders : List Tender
  tenderHistory : List Tender
  bids : List Bid
  bidHistory : List BidHistoryRow
  bidReviews : List BidReview
  employees : List Employee
  orgResponsibles : List OrgResponsible
deriving Repr, DecidableEq

/-- `SELECT ... FROM tender WHERE id = $1` via `QueryRow`: first matching
row, if any. -/
def findTender (db : Database) (tenderId : String) : Option Tender :=
  db.tenders.find? (fun t => t.id == tenderId)

/-- `SELECT ... FROM bid WHERE id = $1` via `QueryRow`. -/
def findBid (db : Database) (bidId : String) : Option Bid :=
  db.bids.find? (fun b => b.id == bidId)

/-- `SELECT ... FROM tender_history WHERE id = $1 AND version = $2`. -/
def findTenderHistory (db : Database) (tenderId : String) (version : Int) :
    Option Tender :=
  db.tenderHistory.find? (fun t => t.id == tenderId && t.version == version)

/-- `SELECT ... FROM bid_history WHERE bid_id = $1 AND version = $2`. -/
def findBidHistory (db : Database) (bidId : String) (version : Int) :
    Option BidHistoryRow :=
  db.bidHistory.find? (fun h => h.bidId == bidId && h.version == version)

/-- `UPDATE tender SET ... WHERE id = $n`: apply the row transformer to
every row whose id matches (id is the primary key, so at most one row in
any real database). -/
def applyTenderUpdate (db : Database) (tenderId : String) (g : Tender → Tender) :
    Database :=
  { db with tenders := db.tenders.map (fun t => if t.id == tenderId then g t else t) }

/-- `UPDATE bid SET ... WHERE id = $n`. -/
def applyBidUpdate (db : Database) (bidId : String) (g : Bid → Bid) : Database :=
  { db with bids := db.bids.map (fun b => if b.id == bidId then g b else b) }

/-- SQL `COALESCE(MAX(...), 0)` over a column list. -/
def listMax0 : List Int → Int
  | [] => 0
  | v :: rest => rest.foldl max v

/-- The versions of all `tender_history` rows of one tender, in table
(insertion) order. -/
def tenderHistVersions (db : Database) (tenderId : String) : List Int :=
  (db.tenderHistory.filter (fun t => t.id == tenderId)).map (fun t => t.version)

/-- The versions of all `bid_history` rows of one bid, in table order. -/
def bidHistVersions (db : Database) (bidId : String) : List Int :=
  (db.bidHistory.filter (fun h => h.bidId == bidId)).map (fun h => h.version)

/-- `SELECT COALESCE(MAX(version), 0) FROM tender_history WHERE id = $1`. -/
def tenderHistoryMaxVersion (db : Database) (tenderId : String) : Int :=
  listMax0 (tenderHistVersions db tenderId)

/-- `SELECT COALESCE(MAX(version), 0) FROM bid_history WHERE bid_id = $1`. -/
def bidHistoryMaxVersion (db : Database) (bidId : String) : Int :=
  listMax0 (bidHistVersions db bidId)

namespace utils

/-- `strconv.Atoi`: optional sign followed by at least one digit; any
other input is an error (Go's int is 64-bit; overflow is not modelled,
no claim involves inputs near 2^63). -/
def Atoi (s : String) : Option Int :=
  match s.toList with
  | [] => none
  | c :: rest =>
    let (sign, digits) :=
      if c == '-' then ((-1 : Int), rest)
      else if c == '+' then ((1 : Int), rest)
      else ((1 : Int), c :: rest)
    if digits.isEmpty || !(digits.all (fun d => d.isDigit)) then none
    else some (sign * (digits.foldl (fun acc d => acc * 10 + (d.toNat - 48)) 0 : Nat))

/-- The limit branch of `utils.ParseLimitOffset`: default 5 when absent;
a present limit must parse to an integer in 1..50. -/
def parseLimit (limitStr : String) : Option Int :=
  if limitStr == "" then some 5
  else match Atoi limitStr with
       | none => none
       | some l => if l ≤ 0 || 50 < l then none else some l

/-- The offset branch of `utils.ParseLimitOffset`: default 0 when absent;
a present offset must parse to a non-negative integer. -/
def parseOffset (offsetStr : String) : Option Int :=
  if offsetStr == "" then some 0
  else match Atoi offsetStr with
       | none => none
       | some o => if o < 0 then none else some o

/-- `utils.ParseLimitOffset`. -/
def ParseLimitOffset (limitStr offsetStr : String) : Except String (Int × Int) :=
  match parseLimit limitStr with
  | none => .error "invalid limit parameter, must be a positive integer [0:50]"
  | some limit =>
    match parseOffset offsetStr with
    | none => .error "invalid offset parameter, must be a non-negative integer"
    | some offset => .ok (limit, offset)

/-- `utils.CheckUserExists`: `EXISTS(SELECT 1 FROM employee WHERE username = $1)`. -/
def CheckUserExists (db : Database) (username : String) : Bool :=
  db.employees.any (fun e => e.username == username)

/-- `utils.CheckUserResponsibleForOrganization`: the user (joined through
`employee` by username) appears in `organization_responsible` for the
given organization. -/
def CheckUserResponsibleForOrganization (db : Database) (user organizationId : String) :
    Bool :=
  db.orgResponsibles.any (fun o =>
    o.organizationId == organizationId &&
      db.employees.any (fun e => e.id == o.userId && e.username == user))

/-- `utils.CheckUserAuthorized`: the SQL is
`EXISTS(SELECT 1 FROM tender WHERE id = $1 AND creator_username = $2 OR
EXISTS(... organization_responsible ... organization_id =
tender.organization_id ...))`; by SQL precedence the OR's second disjunct
is correlated to each tender row but not constrained to id = $1. -/
def CheckUserAuthorized (db : Database) (username tenderId : String) : Bool :=
  db.tenders.any (fun t =>
    (t.id == tenderId && t.creatorUsername == username) ||
      db.orgResponsibles.any (fun o =>
        o.organizationId == t.organizationId &&
          db.employees.any (fun e => e.id == o.userId && e.username == username)))

/-- `utils.CheckUserAuthorizedForBid`: the bid's author_id is the
employee id of the given username. -/
def CheckUserAuthorizedForBid (db : Database) (username bidId : String) : Bool :=
  db.bids.any (fun b =>
    b.id == bidId &&
      db.employees.any (fun e => e.id == b.authorId && e.username == username))

/-- `utils.CheckTenderExists`. -/
def CheckTenderExists (db : Database) (tenderId : String) : Bool :=
  db.tenders.any (fun t => t.id == tenderId)

/-- `utils.CheckBidExists`. -/
def CheckBidExists (db : Database) (bidId : String) : Bool :=
  db.bids.any (fun b => b.id == bidId)

/-- `utils.ContainsTender`: membership of a status in the allowed-target
slice. -/
def ContainsTender (validTransitions : List String) (newStatus : String) : Bool :=
  validTransitions.any (fun s => s == newStatus)

/-- `utils.ContainsBid`. -/
def ContainsBid (validStatuses : List String) (newStatus : String) : Bool :=
  validStatuses.any (fun s => s == newStatus)

end utils

namespace repository

/-- Allowed service types shared by `EditTender` and the tender service
(`models.Construction`, `models.Delivery`, `models.Manufacture`). -/
def allowedServiceTypes (s : String) : Bool :=
  s == "Construction" || s == "Delivery" || s == "Manufacture"

/-- A sparse patch: the Go `map[string]interface{}` is only ever read at
the keys "name", "description", "serviceType" with a string type
assertion, so unrecognized keys and non-string values behave exactly
like absent keys and are modelled as `none`. -/
structure UpdateFields where
  name : Option String
  description : Option String
  serviceType : Option String
deriving Repr, DecidableEq

/-- The Go pattern `if v, ok := m[k].(string); ok && v != ""`: a present,
non-empty string field. -/
def strField (o : Option String) : Option String :=
  match o with
  | some s => if s == "" then none else some s
  | none => none

/-- Field validation of `EditTender` (performed AFTER the history insert
in the Go code): name and description are taken when present and
non-empty; a present non-empty serviceType outside the allowed set is an
immediate 400; if nothing remains, 400 "No valid fields to update". -/
def tenderPatchFields (updateFields : UpdateFields) :
    Except RepoError (Option String × Option String × Option String) :=
  let nameU := strField updateFields.name
  let descU := strField updateFields.description
  match strField updateFields.serviceType with
  | some st =>
    if allowedServiceTypes st then .ok (nameU, descU, some st)
    else .error (.errResp 400 ("invalid service_type parameter: " ++ st))
  | none =>
    if nameU.isNone && descU.isNone then
      .error (.errResp 400 "No valid fields to update")
    else .ok (nameU, descU, none)

/-- Field validation of `EditBid`: only name and description exist. -/
def bidPatchFields (updateFields : UpdateFields) :
    Except RepoError (Option String × Option String) :=
  let nameU := strField updateFields.name
  let descU := strField updateFields.description
  if nameU.isNone && descU.isNone then
    .error (.errResp 400 "no valid fields to update")
  else .ok (nameU, descU)

/-- The SET clause of the `EditTender` live-row update: patched fields
plus `version = version + 1`. -/
def tenderPatchSetter (nameU descU stU : Option String) (t : Tender) : Tender :=
  { t with name := nameU.getD t.name, description := descU.getD t.description,
           serviceType := stU.getD t.serviceType, version := t.version + 1 }

/-- The SET clause of the `EditBid` live-row update. -/
def bidPatchSetter (nameU descU : Option String) (b : Bid) : Bid :=
  { b with name := nameU.getD b.name, description := descU.getD b.description,
           version := b.version + 1 }

/-- The SET clause of the `RollbackTender` live-row update: all content
fields AND status come from the history row; `version = version + 1`. -/
def tenderRollbackSetter (rollbackVersion : Tender) (t : Tender) : Tender :=
  { t with name := rollbackVersion.name, description := rollbackVersion.description,
           serviceType := rollbackVersion.serviceType,
           status := rollbackVersion.status, version := t.version + 1 }

/-- The SET clause of the `RollbackBid` live-row update. -/
def bidRollbackSetter (rollbackBid : BidHistoryRow) (b : Bid) : Bid :=
  { b with name := rollbackBid.name, description := rollbackBid.description,
           status := rollbackBid.status, authorType := rollbackBid.authorType,
           authorId := rollbackBid.authorId, version := b.version + 1 }

/-- The column tuple of an `INSERT INTO bid_history` taken from a bid row
(no tender_id column), with an explicitly chosen version. -/
def bidSnapshotRow (b : Bid) (version : Int) : BidHistoryRow :=
  { bidId := b.id, name := b.name, description := b.description, status := b.status,
    authorType := b.authorType, authorId := b.authorId, version := version,
    createdAt := b.createdAt }

/-- `PostgresTenderRepository.CreateTender`: insert the new live row with
version 1 and status Created.  `newId`/`now` stand for `uuid.New()` and
`time.Now()`. -/
def CreateTender (db : Database) (tenderReq : TenderRequest) (newId : String)
    (now : Nat) : Database × Except RepoError Tender :=
  let newTender : Tender :=
    { id := newId, name := tenderReq.name, description := tenderReq.description,
      serviceType := tenderReq.serviceType, status := "Created",
      organizationId := tenderReq.organizationId, version := 1, createdAt := now,
      creatorUsername := tenderReq.creatorUsername }
  ({ db with tenders := db.tenders ++ [newTender] }, .ok newTender)

/-- `PostgresBidRepository.CreateBid`. -/
def CreateBid (db : Database) (bidReq : BidRequest) (newId : String) (now : Nat) :
    Database × Except RepoError Bid :=
  let newBid : Bid :=
    { id := newId, name := bidReq.name, description := bidReq.description,
      status := "Created", tenderId := bidReq.tenderId,
      authorType := bidReq.authorType, authorId := bidReq.authorId, version := 1,
      createdAt := now }
  ({ db with bids := db.bids ++ [newBid] }, .ok newBid)

/-- `PostgresTenderRepository.UpdateTenderStatus`: a bare
`UPDATE tender SET status = $1 WHERE id = $2` followed by a re-select of
the row. -/
def UpdateTenderStatus (db : Database) (tenderId status : String) :
    Database × Except RepoError Tender :=
  let db1 := applyTenderUpdate db tenderId (fun t => { t with status := status })
  match findTender db1 tenderId with
  | none => (db1, .error .noRows)
  | some updatedTender => (db1, .ok updatedTender)

/-- `PostgresBidRepository.UpdateBidStatus`. -/
def UpdateBidStatus (db : Database) (bidId status : String) :
    Database × Except RepoError Bid :=
  let db1 := applyBidUpdate db bidId (fun b => { b with status := status })
  match findBid db1 bidId with
  | none => (db1, .error .noRows)
  | some bid => (db1, .ok bid)

/-- `PostgresTenderRepository.EditTender`: select the live row, insert a
history snapshot of it at max(history version)+1, and only then validate
the patch — an invalid patch errors with the snapshot already inserted
(there is no transaction).  On success the live row gets the patched
fields and `version = version + 1`. -/
def EditTender (db : Database) (tenderId : String) (updateFields : UpdateFields) :
    Database × Except RepoError Tender :=
  match findTender db tenderId with
  | none => (db, .error .noRows)
  | some currentTender =>
    let maxVersion := tenderHistoryMaxVersion db currentTender.id
    let db1 := { db with
      tenderHistory := db.tenderHistory ++ [{ currentTender with version := maxVersion + 1 }] }
    match tenderPatchFields updateFields with
    | .error e => (db1, .error e)
    | .ok (nameU, descU, stU) =>
      (applyTenderUpdate db1 tenderId (tenderPatchSetter nameU descU stU),
       .ok (tenderPatchSetter nameU descU stU currentTender))

/-- `PostgresBidRepository.EditBid`: same shape as `EditTender` (the Go
code selects the bid twice; the second read is identical and dropped). -/
def EditBid (db : Database) (bidId : String) (updateFields : UpdateFields) :
    Database × Except RepoError Bid :=
  match findBid db bidId with
  | none => (db, .error .noRows)
  | some currentBid =>
    let maxVersion := bidHistoryMaxVersion db currentBid.id
    let db1 := { db with
      bidHistory := db.bidHistory ++ [bidSnapshotRow currentBid (maxVersion + 1)] }
    match bidPatchFields updateFields with
    | .error e => (db1, .error e)
    | .ok (nameU, descU) =>
      (applyBidUpdate db1 bidId (bidPatchSetter nameU descU),
       .ok (bidPatchSetter nameU descU currentBid))

/-- `PostgresTenderRepository.RollbackTender`: select the live row
(`SELECT organization_id`), select the history row at the requested
version (error `noRows` if absent, nothing written), update the live row
to the history row's name/description/service_type/status with
`version = version + 1`, then insert the UPDATED row — including its new
version — into `tender_history`. -/
def RollbackTender (db : Database) (tenderId : String) (version : Int) :
    Database × Except RepoError Tender :=
  match findTender db tenderId with
  | none => (db, .error .noRows)
  | some currentTender =>
    match findTenderHistory db tenderId version with
    | none => (db, .error .noRows)
    | some rollbackVersion =>
      let updatedTender := tenderRollbackSetter rollbackVersion currentTender
      let db1 := applyTenderUpdate db tenderId (tenderRollbackSetter rollbackVersion)
      ({ db1 with tenderHistory := db1.tenderHistory ++ [updatedTender] },
       .ok updatedTender)

/-- `PostgresBidRepository.RollbackBid`: same shape; the history insert
likewise records the new live version. -/
def RollbackBid (db : Database) (bidId : String) (version : Int) :
    Database × Except RepoError Bid :=
  match findBid db bidId with
  | none => (db, .error .noRows)
  | some currentBid =>
    match findBidHistory db bidId version with
    | none => (db, .error .noRows)
    | some rollbackBid =>
      let updatedBid := bidRollbackSetter rollbackBid currentBid
      let db1 := applyBidUpdate db bidId (bidRollbackSetter rollbackBid)
      ({ db1 with bidHistory :=
          db1.bidHistory ++ [bidSnapshotRow updatedBid updatedBid.version] },
       .ok updatedBid)

/-- `PostgresBidRepository.SubmitBidDecision`: select the bid, set its
status to the decision with one `Exec`, and — only when the decision is
"Approved" — force the parent tender's status to "Closed" with a second,
separate `Exec`.  There is no transaction; the flags inject a forced
failure of either `Exec` (`false`/`false` is the normal run). -/
def SubmitBidDecision (db : Database) (bidId decision : String)
    (bidWriteFails tenderWriteFails : Bool) : Database × Except RepoError Bid :=
  match findBid db bidId with
  | none => (db, .error .noRows)
  | some bid0 =>
    let bid := { bid0 with status := decision }
    if bidWriteFails then (db, .error .execFailed)
    else
      let db1 := applyBidUpdate db bidId (fun b => { b with status := decision })
      if decision == "Approved" then
        if tenderWriteFails then (db1, .error .execFailed)
        else
          (applyTenderUpdate db1 bid.tenderId (fun t => { t with status := "Closed" }),
           .ok bid)
      else (db1, .ok bid)

/-- `PostgresBidRepository.SubmitBidFeedback`: insert the review row,
then re-select and return the unchanged bid. -/
def SubmitBidFeedback (db : Database) (review : BidReview) (bidId : String) :
    Database × Except RepoError Bid :=
  let db1 := { db with bidReviews := db.bidReviews ++ [review] }
  match findBid db1 bidId with
  | none => (db1, .error .noRows)
  | some bid => (db1, .ok bid)

/-- Models `ORDER BY name` (insertion sort; stable enough for the claims
proved here, none of which depends on tie order). -/
def insertByName (t : Tender) : List Tender → List Tender
  | [] => [t]
  | h :: rest =>
    if t.name ≤ h.name then t :: h :: rest else h :: insertByName t rest

/-- Sort tender rows by name, modelling `ORDER BY name`. -/
def orderByName : List Tender → List Tender
  | [] => []
  | h :: rest => insertByName h (orderByName rest)

/-- The page a `LIMIT $n OFFSET $m` query returns. -/
def paginate (l : List Tender) (limit offset : Int) : List Tender :=
  (l.drop offset.toNat).take limit.toNat

/-- The row loop of `PostgresTenderRepository.GetUserTender`: for each
returned row, check the requesting user is responsible for the row's
organization; the first failure aborts the whole listing with 403. -/
def scanUserTenders (db : Database) (username : String) :
    List Tender → Except RepoError (List Tender)
  | [] => .ok []
  | t :: rest =>
    if !(utils.CheckUserResponsibleForOrganization db username t.organizationId) then
      .error (.errResp 403 "you do not have permission to view tenders for this organization")
    else
      match scanUserTenders db username rest with
      | .error e => .error e
      | .ok ts => .ok (t :: ts)

/-- `PostgresTenderRepository.GetUserTender`: rows are the user's tenders
(`creator_username = $1`) ordered by name and paginated in SQL; the Go
loop then re-checks responsibility per row. -/
def GetUserTender (db : Database) (limit offset : Int) (username : String) :
    Except RepoError (List Tender) :=
  let rows := paginate
    (orderByName (db.tenders.filter (fun t => t.creatorUsername == username)))
    limit offset
  scanUserTenders db username rows

end repository

namespace services

/-- Tender status transition table of `TenderService.UpdateTenderStatus`;
a Go map lookup at a missing key yields the zero value (empty slice), so
any status outside the table — including terminal "Closed" — allows no
target. -/
def allowedStatusTransitionTender (s : String) : List String :=
  if s == "Created" then ["Published", "Closed"]
  else if s == "Published" then ["Closed"]
  else []

/-- Bid status transition table of `BidService.UpdateBidStatus`. -/
def allowedStatusTransitionBid (s : String) : List String :=
  if s == "Created" then ["Published", "Canceled"]
  else if s == "Published" then ["Canceled"]
  else []

/-- `TenderService.UpdateTenderStatus`: argument presence, user
existence, tender authorization, tender lookup, transition validation,
then the repository write.  Read-only failures leave the state
untouched. -/
def UpdateTenderStatus (db : Database) (tenderId status username : String) :
    Database × Except RepoError Tender :=
  if status == "" || username == "" then
    (db, .error (.errResp 400 "missing required query parameters: status or username"))
  else if !(utils.CheckUserExists db username) then
    (db, .error (.errResp 401 "user does not exist"))
  else if !(utils.CheckUserAuthorized db username tenderId) then
    (db, .error (.errResp 403 "you are not authorized to edit this tender"))
  else
    match findTender db tenderId with
    | none => (db, .error (.errResp 404 "tender not found"))
    | some currentTender =>
      if !(utils.ContainsTender (allowedStatusTransitionTender currentTender.status) status) then
        (db, .error (.errResp 400 "invalid tender status"))
      else repository.UpdateTenderStatus db tenderId status

/-- `BidService.UpdateBidStatus`: the one bid mutation that checks the
actor is the bid's author (`CheckUserAuthorizedForBid`). -/
def UpdateBidStatus (db : Database) (bidId status username : String) :
    Database × Except RepoError Bid :=
  if status == "" || username == "" then
    (db, .error (.errResp 400 "missing required query parameters: username or status"))
  else if !(utils.CheckUserExists db username) then
    (db, .error (.errResp 401 "user does not exist"))
  else if !(utils.CheckUserAuthorizedForBid db username bidId) then
    (db, .error (.errResp 403 "user is not authorized to view bids for this tender"))
  else
    match findBid db bidId with
    | none => (db, .error (.errResp 404 "bid not found"))
    | some currentBid =>
      if !(utils.ContainsBid (allowedStatusTransitionBid currentBid.status) status) then
        (db, .error (.errResp 400 "invalid bid status"))
      else repository.UpdateBidStatus db bidId status

/-- `BidService.EditBid`: checks only that the arguments are present and
the user EXISTS; there is no authorship check before delegating to the
repository.  (The Go `if !bidExists && err != nil` guard can only fire
when the existence query itself errors, which has no counterpart in this
error-free query model, so it is dropped.) -/
def EditBid (db : Database) (bidId username : String)
    (updateFields : repository.UpdateFields) : Database × Except RepoError Bid :=
  if username == "" || bidId == "" then
    (db, .error (.errResp 400 "missing required query parameter: bidId or username"))
  else if !(utils.CheckUserExists db username) then
    (db, .error (.errResp 401 "user does not exist"))
  else repository.EditBid db bidId updateFields

/-- `BidService.SubmitBidDecision`: decision-set and user-existence
checks only; no authorization check.  The repository call is the normal
run (no injected failure). -/
def SubmitBidDecision (db : Database) (bidId username decision : String) :
    Database × Except RepoError Bid :=
  if decision == "" || username == "" then
    (db, .error (.errResp 400 "decision and username are required"))
  else if !(decision == "Approved" || decision == "Rejected") then
    (db, .error (.errResp 400 "invalid decision, must be either 'Approved' or 'Rejected'"))
  else if !(utils.CheckUserExists db username) then
    (db, .error (.errResp 401 "user does not exist"))
  else repository.SubmitBidDecision db bidId decision false false

/-- `BidService.SubmitBidFeedback`: argument presence and user existence
only; no authorization check. -/
def SubmitBidFeedback (db : Database) (review : BidReview)
    (bidId bidFeedback username : String) : Database × Except RepoError Bid :=
  if bidFeedback == "" || username == "" || bidId == "" then
    (db, .error (.errResp 400 "bidFeedback, username and bidId are required"))
  else if !(utils.CheckUserExists db username) then
    (db, .error (.errResp 401 "user does not exist"))
  else repository.SubmitBidFeedback db review bidId

/-- `BidService.RollbackBid`: version parse, argument presence and user
existence only; no authorization check. -/
def RollbackBid (db : Database) (bidId username versionStr : String) :
    Database × Except RepoError Bid :=
  match utils.Atoi versionStr with
  | none => (db, .error (.errResp 400 "invalid version number"))
  | some version =>
    if username == "" || bidId == "" || versionStr == "" then
      (db, .error (.errResp 400 "missing required query parameter: bidId or username or version"))
    else if !(utils.CheckUserExists db username) then
      (db, .error (.errResp 401 "user does not exist"))
    else repository.RollbackBid db bidId version

/-- `TenderService.RollbackTender`. -/
def RollbackTender (db : Database) (tenderId username versionStr : String) :
    Database × Except RepoError Tender :=
  if username == "" || tenderId == "" || versionStr == "" then
    (db, .error (.errResp 400 "missing required query parameter: tenderId or username or version"))
  else
    match utils.Atoi versionStr with
    | none => (db, .error (.errResp 400 "invalid version number"))
    | some version =>
      if !(utils.CheckUserExists db username) then
        (db, .error (.errResp 401 "user does not exist"))
      else if !(utils.CheckUserAuthorized db username tenderId) then
        (db, .error (.errResp 403 "you are not authorized to edit this tender"))
      else repository.RollbackTender db tenderId version

/-- `TenderService.GetUserTender`: user existence (when a username is
given) is checked BEFORE limit/offset parsing; listing is read-only. -/
def GetUserTender (db : Database) (limitStr offsetStr username : String) :
    Except RepoError (List Tender) :=
  if username != "" && !(utils.CheckUserExists db username) then
    .error (.errResp 401 "user does not exist")
  else
    match utils.ParseLimitOffset limitStr offsetStr with
    | .error msg => .error (.errResp 400 msg)
    | .ok (limit, offset) => repository.GetUserTender db limit offset username

end services

namespace handlers

/-- Error rendering shared by the HTTP handlers: a `*models.ErrorResponse`
is sent with its own status code, every other error (in particular the
raw pgx no-rows error a failed rollback lookup returns) becomes a 500. -/
def errorStatusCode : RepoError → Nat
  | .errResp statusCode _ => statusCode
  | _ => 500

end handlers

/-- True exactly when a call succeeded. -/
def resultOk {ε α : Type _} : Except ε α → Bool
  | .ok _ => true
  | .error _ => false

instance {ε α : Type _} [DecidableEq ε] [DecidableEq α] : DecidableEq (Except ε α) :=
  fun x y =>
  match x, y with
  | .ok a, .ok b =>
    if h : a = b then .isTrue (by rw [h]) else .isFalse (by intro hc; cases hc; exact h rfl)
  | .error a, .error b =>
    if h : a = b then .isTrue (by rw [h]) else .isFalse (by intro hc; cases hc; exact h rfl)
  | .ok _, .error _ => .isFalse (by intro hc; cases hc)
  | .error _, .ok _ => .isFalse (by intro hc; cases hc)

/-- The list `[a, a+1, ..., a+n-1]`. -/
def seqFrom : Int → Nat → List Int
  | _, 0 => []
  | a, n + 1 => a :: seqFrom (a + 1) n

/-- The spec's ledger invariant for a tender: the history versions are
exactly 1, 2, ..., N in order and the live row's version is N + 1. -/
def tenderLedgerOk (db : Database) (tenderId : String) : Bool :=
  match findTender db tenderId with
  | none => false
  | some live =>
    let vs := tenderHistVersions db tenderId
    vs == seqFrom 1 vs.length && live.version == (vs.length : Int) + 1

/-- The spec's ledger invariant for a bid. -/
def bidLedgerOk (db : Database) (bidId : String) : Bool :=
  match findBid db bidId with
  | none => false
  | some live =>
    let vs := bidHistVersions db bidId
    vs == seqFrom 1 vs.length && live.version == (vs.length : Int) + 1

/-! Concrete fixtures used by counterexamples and witnesses. -/

/-- Identity tables: alice (employee e1, responsible for o1) and eve
(employee e2, responsible for nothing). -/
def baseDB : Database :=
  { tenders := [], tenderHistory := [], bids := [], bidHistory := [],
    bidReviews := [],
    employees := [{ id := "e1", username := "alice" }, { id := "e2", username := "eve" }],
    orgResponsibles := [{ userId := "e1", organizationId := "o1" }] }

/-- Creation request for the fixture tender t1. -/
def reqRoad : TenderRequest :=
  { name := "Road repair", description := "original", serviceType := "Construction",
    organizationId := "o1", creatorUsername := "alice" }

/-- A patch setting only the description. -/
def patchDescr : repository.UpdateFields :=
  { name := none, description := some "edited", serviceType := none }

/-- A patch with no recognized non-empty field. -/
def patchEmpty : repository.UpdateFields :=
  { name := none, description := none, serviceType := none }

/-- State after creating tender t1. -/
def dbT0 : Database := (repository.CreateTender baseDB reqRoad "t1" 100).1

/-- State after one successful edit of t1. -/
def dbT1 : Database := (repository.EditTender dbT0 "t1" patchDescr).1

/-- State after rolling t1 back to version 1. -/
def dbT2 : Database := (repository.RollbackTender dbT1 "t1" 1).1

/-- A published fixture tender owned by o1, created by alice. -/
def tenderT1 : Tender :=
  { id := "t1", name := "Road repair", description := "original",
    serviceType := "Construction", status := "Published", organizationId := "o1",
    version := 1, createdAt := 100, creatorUsername := "alice" }

/-- A published fixture bid on t1 authored by alice (employee e1). -/
def bidB1 : Bid :=
  { id := "b1", name := "Offer", description := "bid text", status := "Published",
    tenderId := "t1", authorType := "User", authorId := "e1", version := 1,
    createdAt := 101 }

/-- Fixture database holding tender t1 and bid b1. -/
def dbBids : Database := { baseDB with tenders := [tenderT1], bids := [bidB1] }

/-- A tender created by alice under organization o2, which alice is not
responsible for. -/
def tenderForeign : Tender :=
  { id := "t9", name := "Bridge", description := "d", serviceType := "Delivery",
    status := "Created", organizationId := "o2", version := 1, createdAt := 50,
    creatorUsername := "alice" }

/-- Fixture database for the listing claim. -/
def dbForeign : Database := { baseDB with tenders := [tenderForeign] }

/-- Creation request for the fixture bid b2. -/
def reqOffer : BidRequest :=
  { name := "Second offer", description := "text", tenderId := "t1",
    authorType := "User", authorId := "e1" }

/-- State after creating bid b2. -/
def dbB0 : Database := (repository.CreateBid baseDB reqOffer "b2" 200).1

/-- State after one successful edit of b2. -/
def dbB1 : Database := (repository.EditBid dbB0 "b2" patchDescr).1

/-- A fixture review row. -/
def review1 : BidReview :=
  { id := "r1", bidId := "b1", description := "nice work", createdAt := 300 }

/-! Helper lemmas. -/

/-- Finding in a list mapped by a function that rewrites exactly the rows
the predicate matches, without changing whether any row matches. -/
theorem find?_map_ite {α : Type _} (p : α → Bool) (g : α → α)
    (hg : ∀ t, p (g t) = p t) :
    ∀ (l : List α) (cur : α), l.find? p = some cur →
      (l.map (fun t => if p t then g t else t)).find? p = some (g cur) := by
  intro l
  induction l with
  | nil => intro cur h; simp at h
  | cons h rest ih =>
    intro cur hf
    simp only [List.map_cons]
    by_cases hp : p h = true
    · rw [List.find?_cons_of_pos _ hp] at hf
      cases hf
      simp only [hp, if_true]
      exact List.find?_cons_of_pos _ (by rw [hg]; exact hp)
    · rw [List.find?_cons_of_neg _ (by simpa using hp)] at hf
      simp only [hp, if_false, Bool.false_eq_true]
      rw [List.find?_cons_of_neg _ (by simpa using hp)]
      exact ih cur hf

theorem seqFrom_length : ∀ (n : Nat) (a : Int), (seqFrom a n).length = n := by
  intro n
  induction n with
  | zero => intro a; rfl
  | succ m ih => intro a; simp [seqFrom, ih]

theorem seqFrom_append : ∀ (n : Nat) (a : Int),
    seqFrom a (n + 1) = seqFrom a n ++ [a + n] := by
  intro n
  induction n with
  | zero => intro a; simp [seqFrom]
  | succ m ih =>
    intro a
    show a :: seqFrom (a + 1) (m + 1) = (a :: seqFrom (a + 1) m) ++ [a + (m + 1)]
    rw [ih (a + 1)]
    have h2 : a + 1 + (m : Int) = a + ((m + 1 : Nat) : Int) := by push_cast; ring
    rw [List.cons_append, h2]
    norm_cast

theorem foldl_max_seqFrom : ∀ (n : Nat) (a : Int),
    (seqFrom a n).foldl max (a - 1) = a - 1 + n := by
  intro n
  induction n with
  | zero => intro a; simp [seqFrom]
  | succ m ih =>
    intro a
    show (seqFrom (a + 1) m).foldl max (max (a - 1) a) = a - 1 + (m + 1)
    have h1 : max (a - 1) a = (a + 1) - 1 := by omega
    rw [h1, ih (a + 1)]
    ring

theorem listMax0_seq (n : Nat) : listMax0 (seqFrom 1 n) = n := by
  cases n with
  | zero => rfl
  | succ m =>
    show (seqFrom 2 m).foldl max 1 = ((m + 1 : Nat) : Int)
    have h1 : (1 : Int) = 2 - 1 := by omega
    rw [h1, foldl_max_seqFrom m 2]
    omega

theorem listMax0_seq_append (n : Nat) (x : Int) (hx : (n : Int) ≤ x) :
    listMax0 (seqFrom 1 n ++ [x]) = x := by
  cases n with
  | zero => simp [seqFrom, listMax0]
  | succ m =>
    show ((seqFrom 2 m) ++ [x]).foldl max 1 = x
    rw [List.foldl_append]
    have h1 : (1 : Int) = 2 - 1 := by omega
    rw [h1, foldl_max_seqFrom m 2]
    simp only [List.foldl]
    omega

theorem listMax0_of_seq {l : List Int} {n : Nat} (h : l = seqFrom 1 n) :
    listMax0 l = (n : Int) := by
  rw [h]
  exact listMax0_seq n

/-- Branch computation: editing an absent tender fails untouched. -/
theorem EditTender_none {db : Database} {tenderId : String}
    {p : repository.UpdateFields} (hfind : findTender db tenderId = none) :
    repository.EditTender db tenderId p = (db, .error .noRows) := by
  unfold repository.EditTender
  rw [hfind]

/-- Branch computation: an invalid patch errors AFTER the history insert. -/
theorem EditTender_err {db : Database} {tenderId : String}
    {p : repository.UpdateFields} {cur : Tender} {e : RepoError}
    (hfind : findTender db tenderId = some cur)
    (hpf : repository.tenderPatchFields p = .error e) :
    repository.EditTender db tenderId p =
      ({ db with tenderHistory :=
          db.tenderHistory ++ [{ cur with version := tenderHistoryMaxVersion db cur.id + 1 }] },
       .error e) := by
  unfold repository.EditTender
  rw [hfind, hpf]

/-- Branch computation: a successful edit inserts the snapshot and
updates the live row. -/
theorem EditTender_ok {db : Database} {tenderId : String}
    {p : repository.UpdateFields} {cur : Tender}
    {nameU descU stU : Option String}
    (hfind : findTender db tenderId = some cur)
    (hpf : repository.tenderPatchFields p = .ok (nameU, descU, stU)) :
    repository.EditTender db tenderId p =
      (applyTenderUpdate
        { db with tenderHistory :=
            db.tenderHistory ++ [{ cur with version := tenderHistoryMaxVersion db cur.id + 1 }] }
        tenderId (repository.tenderPatchSetter nameU descU stU),
       .ok (repository.tenderPatchSetter nameU descU stU cur)) := by
  unfold repository.EditTender
  rw [hfind, hpf]

/-- findTender after an update of the found row. -/
theorem findTender_applyTenderUpdate {db : Database} {tenderId : String}
    {g : Tender → Tender} (hg : ∀ t, (g t).id = t.id) {cur : Tender}
    (h : findTender db tenderId = some cur) :
    findTender (applyTenderUpdate db tenderId g) tenderId = some (g cur) := by
  have h' : db.tenders.find? (fun t => t.id == tenderId) = some cur := h
  have hg' : ∀ t : Tender,
      ((fun t : Tender => t.id == tenderId) (g t)) = ((fun t : Tender => t.id == tenderId) t) := by
    intro t
    show ((g t).id == tenderId) = (t.id == tenderId)
    rw [hg t]
  exact find?_map_ite (fun t => t.id == tenderId) g hg' db.tenders cur h'

/-- The matched row of a findTender has the looked-up id. -/
theorem findTender_id {db : Database} {tenderId : String} {cur : Tender}
    (h : findTender db tenderId = some cur) : (cur.id == tenderId) = true := by
  have h' : db.tenders.find? (fun t => t.id == tenderId) = some cur := h
  have := List.find?_some h'
  simpa using this

/-- Appending one history row appends its version to the version list
when the ids match. -/
theorem tenderHistVersions_snoc (db : Database) (row : Tender) (tenderId : String) :
    tenderHistVersions { db with tenderHistory := db.tenderHistory ++ [row] } tenderId
      = tenderHistVersions db tenderId
        ++ (if row.id == tenderId then [row.version] else []) := by
  unfold tenderHistVersions
  dsimp only
  rw [List.filter_append, List.map_append]
  congr 1
  cases h : row.id == tenderId <;> simp [List.filter, h]

/-- Appending one history row whose id matches appends its version. -/
theorem tenderHistVersions_snoc_match (db : Database) (row : Tender) (tenderId : String)
    (h : (row.id == tenderId) = true) :
    tenderHistVersions { db with tenderHistory := db.tenderHistory ++ [row] } tenderId
      = tenderHistVersions db tenderId ++ [row.version] := by
  rw [tenderHistVersions_snoc, h]
  simp

/-- A successful edit preserves the ledger invariant. -/
theorem editTender_ledger {db : Database} {tenderId : String}
    {p : repository.UpdateFields}
    (hInv : tenderLedgerOk db tenderId = true)
    (hOk : resultOk (repository.EditTender db tenderId p).2 = true) :
    tenderLedgerOk (repository.EditTender db tenderId p).1 tenderId = true := by
  cases hfind : findTender db tenderId with
  | none => unfold tenderLedgerOk at hInv; rw [hfind] at hInv; simp at hInv
  | some cur =>
    have hcurid : (cur.id == tenderId) = true := findTender_id hfind
    unfold tenderLedgerOk at hInv
    rw [hfind] at hInv
    simp only [Bool.and_eq_true, beq_iff_eq] at hInv
    obtain ⟨N, hvs, hver⟩ : ∃ N : Nat,
        tenderHistVersions db tenderId = seqFrom 1 N ∧ cur.version = (N : Int) + 1 :=
      ⟨(tenderHistVersions db tenderId).length, hInv.1, by rw [hInv.2]⟩
    cases hpf : repository.tenderPatchFields p with
    | error e =>
      rw [EditTender_err hfind hpf] at hOk
      simp [resultOk] at hOk
    | ok fields =>
      obtain ⟨nameU, descU, stU⟩ := fields
      have hmax : tenderHistoryMaxVersion db cur.id = (N : Int) := by
        rw [eq_of_beq hcurid]
        exact listMax0_of_seq hvs
      rw [EditTender_ok hfind hpf]
      dsimp only
      have hfind1 : findTender
          { db with tenderHistory :=
              db.tenderHistory ++ [{ cur with version := tenderHistoryMaxVersion db cur.id + 1 }] }
          tenderId = some cur := hfind
      have hfind2 := findTender_applyTenderUpdate
        (fun t : Tender =>
          (rfl : (repository.tenderPatchSetter nameU descU stU t).id = t.id)) hfind1
      unfold tenderLedgerOk
      rw [hfind2]
      have e1 : tenderHistVersions
          (applyTenderUpdate
            { db with tenderHistory :=
                db.tenderHistory ++ [{ cur with version := tenderHistoryMaxVersion db cur.id + 1 }] }
            tenderId (repository.tenderPatchSetter nameU descU stU)) tenderId
          = tenderHistVersions
            { db with tenderHistory :=
                db.tenderHistory ++ [{ cur with version := tenderHistoryMaxVersion db cur.id + 1 }] }
            tenderId := rfl
      rw [e1, tenderHistVersions_snoc]
      dsimp only
      rw [hcurid, hmax, hvs]
      simp only [if_true, Bool.and_eq_true, beq_iff_eq]
      constructor
      · rw [List.length_append, seqFrom_length]
        simp only [List.length_singleton]
        rw [seqFrom_append]
        congr 2
        omega
      · show (repository.tenderPatchSetter nameU descU stU cur).version = _
        unfold repository.tenderPatchSetter
        dsimp only
        rw [hver, List.length_append, seqFrom_length]
        simp only [List.length_singleton]
        push_cast
        ring

/-- findTender is insensitive to the history table. -/
theorem findTender_set_history (db : Database) (h : List Tender) (tenderId : String) :
    findTender { db with tenderHistory := h } tenderId = findTender db tenderId := rfl

/-- Branch computation: creating a tender appends the fresh live row. -/
theorem CreateTender_eq (db : Database) (req : TenderRequest) (newId : String) (now : Nat) :
    repository.CreateTender db req newId now =
      ({ db with tenders := db.tenders ++
          [{ id := newId, name := req.name, description := req.description,
             serviceType := req.serviceType, status := "Created",
             organizationId := req.organizationId, version := 1, createdAt := now,
             creatorUsername := req.creatorUsername }] },
       .ok { id := newId, name := req.name, description := req.description,
             serviceType := req.serviceType, status := "Created",
             organizationId := req.organizationId, version := 1, createdAt := now,
             creatorUsername := req.creatorUsername }) := rfl

/-- Inserting a fresh live row with version 1 establishes the invariant. -/
theorem tenderLedger_after_insert {db : Database} {row : Tender} {newId : String}
    (hfind : findTender db newId = none) (hhist : tenderHistVersions db newId = [])
    (hrowid : row.id = newId) (hrowver : row.version = 1) :
    tenderLedgerOk { db with tenders := db.tenders ++ [row] } newId = true := by
  unfold tenderLedgerOk
  have h1 : findTender { db with tenders := db.tenders ++ [row] } newId = some row := by
    have h0 : (db.tenders ++ [row]).find? (fun t => t.id == newId) = some row := by
      rw [List.find?_append]
      have hnone : db.tenders.find? (fun t => t.id == newId) = none := hfind
      rw [hnone, Option.none_or]
      simp [List.find?, hrowid]
    exact h0
  rw [h1]
  have h2 : tenderHistVersions { db with tenders := db.tenders ++ [row] } newId = [] := hhist
  rw [h2]
  simp [seqFrom, hrowver]

/-- Creation establishes the ledger invariant when the id is fresh. -/
theorem createTender_ledger {db : Database} {req : TenderRequest} {newId : String}
    {now : Nat} (hfind : findTender db newId = none)
    (hhist : tenderHistVersions db newId = []) :
    tenderLedgerOk (repository.CreateTender db req newId now).1 newId = true := by
  rw [CreateTender_eq]
  exact tenderLedger_after_insert hfind hhist rfl rfl

/-- Branch computation: rollback to an absent history version fails with
the raw no-rows error and leaves the database untouched. -/
theorem RollbackTender_noHist {db : Database} {tenderId : String} {v : Int}
    (h : findTenderHistory db tenderId v = none) :
    repository.RollbackTender db tenderId v = (db, .error .noRows) := by
  unfold repository.RollbackTender
  cases hf : findTender db tenderId with
  | none => rfl
  | some cur => rw [h]

/-- Branch computation: a successful rollback copies the history row onto
the live row and records the NEW live version in history. -/
theorem RollbackTender_ok {db : Database} {tenderId : String} {v : Int}
    {cur hrow : Tender} (hfind : findTender db tenderId = some cur)
    (hh : findTenderHistory db tenderId v = some hrow) :
    repository.RollbackTender db tenderId v =
      ({ applyTenderUpdate db tenderId (repository.tenderRollbackSetter hrow) with
          tenderHistory := db.tenderHistory ++ [repository.tenderRollbackSetter hrow cur] },
       .ok (repository.tenderRollbackSetter hrow cur)) := by
  unfold repository.RollbackTender
  rw [hfind, hh]
  rfl

/-- A successful rollback from an invariant-satisfying state breaks the
invariant: the new live version equals the maximum history version. -/
theorem rollbackTender_ledger_break {db : Database} {tenderId : String} {v : Int}
    (hInv : tenderLedgerOk db tenderId = true)
    (hOk : resultOk (repository.RollbackTender db tenderId v).2 = true) :
    tenderLedgerOk (repository.RollbackTender db tenderId v).1 tenderId = false ∧
    ∃ cur t : Tender, findTender db tenderId = some cur ∧
      findTender (repository.RollbackTender db tenderId v).1 tenderId = some t ∧
      t.version = cur.version + 1 ∧
      tenderHistVersions (repository.RollbackTender db tenderId v).1 tenderId
        = tenderHistVersions db tenderId ++ [t.version] ∧
      tenderHistoryMaxVersion (repository.RollbackTender db tenderId v).1 tenderId
        = t.version := by
  cases hfind : findTender db tenderId with
  | none => unfold tenderLedgerOk at hInv; rw [hfind] at hInv; simp at hInv
  | some cur =>
    have hcurid : (cur.id == tenderId) = true := findTender_id hfind
    unfold tenderLedgerOk at hInv
    rw [hfind] at hInv
    simp only [Bool.and_eq_true, beq_iff_eq] at hInv
    obtain ⟨N, hvs, hver⟩ : ∃ N : Nat,
        tenderHistVersions db tenderId = seqFrom 1 N ∧ cur.version = (N : Int) + 1 :=
      ⟨(tenderHistVersions db tenderId).length, hInv.1, by rw [hInv.2]⟩
    cases hh : findTenderHistory db tenderId v with
    | none =>
      rw [RollbackTender_noHist hh] at hOk
      simp [resultOk] at hOk
    | some hrow =>
      rw [RollbackTender_ok hfind hh]
      dsimp only
      have hfind2 : findTender
          { applyTenderUpdate db tenderId (repository.tenderRollbackSetter hrow) with
              tenderHistory := db.tenderHistory ++ [repository.tenderRollbackSetter hrow cur] }
          tenderId = some (repository.tenderRollbackSetter hrow cur) := by
    
        show findTender (applyTenderUpdate db tenderId (repository.tenderRollbackSetter hrow))
          tenderId = _
        exact findTender_applyTenderUpdate
          (fun t : Tender => (rfl : (repository.tenderRollbackSetter hrow t).id = t.id)) hfind
      have hvsnoc : tenderHistVersions
          { applyTenderUpdate db tenderId (repository.tenderRollbackSetter hrow) with
              tenderHistory := db.tenderHistory ++ [repository.tenderRollbackSetter hrow cur] }
          tenderId
          = tenderHistVersions db tenderId ++ [(repository.tenderRollbackSetter hrow cur).version] := by
        have hid : ((repository.tenderRollbackSetter hrow cur).id == tenderId) = true := hcurid
        exact tenderHistVersions_snoc_match
          (applyTenderUpdate db tenderId (repository.tenderRollbackSetter hrow))
          (repository.tenderRollbackSetter hrow cur) tenderId hid
      have hversion : (repository.tenderRollbackSetter hrow cur).version = (N : Int) + 2 := by
        show cur.version + 1 = (N : Int) + 2
        rw [hver]
        ring
      refine ⟨?_, cur, repository.tenderRollbackSetter hrow cur, rfl, hfind2, rfl, hvsnoc, ?_⟩
      · unfold tenderLedgerOk
        rw [hfind2]
        dsimp only
        rw [hvsnoc, hversion, hvs]
        have hlen : ((seqFrom 1 N ++ [(N : Int) + 2]).length) = N + 1 := by
          rw [List.length_append, seqFrom_length]
          simp
        rw [hlen]
        have hne : seqFrom 1 N ++ [(N : Int) + 2] ≠ seqFrom 1 (N + 1) := by
          rw [seqFrom_append]
          intro hcon
          have := List.append_cancel_left hcon
          simp only [List.cons.injEq] at this
          omega
        have hbeq : (seqFrom 1 N ++ [(N : Int) + 2] == seqFrom 1 (N + 1)) = false :=
          beq_eq_false_iff_ne.mpr hne
        rw [hbeq]
        simp
      · unfold tenderHistoryMaxVersion
        rw [hvsnoc, hversion, hvs]
        exact listMax0_seq_append N ((N : Int) + 2) (by omega)

/-- findBid after an update of the found row. -/
theorem findBid_applyBidUpdate {db : Database} {bidId : String}
    {g : Bid → Bid} (hg : ∀ b, (g b).id = b.id) {cur : Bid}
    (h : findBid db bidId = some cur) :
    findBid (applyBidUpdate db bidId g) bidId = some (g cur) := by
  have h' : db.bids.find? (fun b => b.id == bidId) = some cur := h
  have hg' : ∀ b : Bid,
      ((fun b : Bid => b.id == bidId) (g b)) = ((fun b : Bid => b.id == bidId) b) := by
    intro b
    show ((g b).id == bidId) = (b.id == bidId)
    rw [hg b]
  exact find?_map_ite (fun b => b.id == bidId) g hg' db.bids cur h'

/-- The matched row of a findBid has the looked-up id. -/
theorem findBid_id {db : Database} {bidId : String} {cur : Bid}
    (h : findBid db bidId = some cur) : (cur.id == bidId) = true := by
  have h' : db.bids.find? (fun b => b.id == bidId) = some cur := h
  have := List.find?_some h'
  simpa using this

/-- Appending one bid-history row appends its version when ids match. -/
theorem bidHistVersions_snoc (db : Database) (row : BidHistoryRow) (bidId : String) :
    bidHistVersions { db with bidHistory := db.bidHistory ++ [row] } bidId
      = bidHistVersions db bidId
        ++ (if row.bidId == bidId then [row.version] else []) := by
  unfold bidHistVersions
  dsimp only
  rw [List.filter_append, List.map_append]
  congr 1
  cases h : row.bidId == bidId <;> simp [List.filter, h]

/-- Appending one bid-history row whose id matches appends its version. -/
theorem bidHistVersions_snoc_match (db : Database) (row : BidHistoryRow) (bidId : String)
    (h : (row.bidId == bidId) = true) :
    bidHistVersions { db with bidHistory := db.bidHistory ++ [row] } bidId
      = bidHistVersions db bidId ++ [row.version] := by
  rw [bidHistVersions_snoc, h]
  simp

/-- Branch computation: editing an absent bid fails untouched. -/
theorem EditBid_none {db : Database} {bidId : String}
    {p : repository.UpdateFields} (hfind : findBid db bidId = none) :
    repository.EditBid db bidId p = (db, .error .noRows) := by
  unfold repository.EditBid
  rw [hfind]

/-- Branch computation: an invalid bid patch errors AFTER the history
insert. -/
theorem EditBid_err {db : Database} {bidId : String}
    {p : repository.UpdateFields} {cur : Bid} {e : RepoError}
    (hfind : findBid db bidId = some cur)
    (hpf : repository.bidPatchFields p = .error e) :
    repository.EditBid db bidId p =
      ({ db with bidHistory :=
          db.bidHistory ++
            [repository.bidSnapshotRow cur (bidHistoryMaxVersion db cur.id + 1)] },
       .error e) := by
  unfold repository.EditBid
  rw [hfind, hpf]

/-- Branch computation: a successful bid edit inserts the snapshot and
updates the live row. -/
theorem EditBid_ok {db : Database} {bidId : String}
    {p : repository.UpdateFields} {cur : Bid} {nameU descU : Option String}
    (hfind : findBid db bidId = some cur)
    (hpf : repository.bidPatchFields p = .ok (nameU, descU)) :
    repository.EditBid db bidId p =
      (applyBidUpdate
        { db with bidHistory :=
            db.bidHistory ++
              [repository.bidSnapshotRow cur (bidHistoryMaxVersion db cur.id + 1)] }
        bidId (repository.bidPatchSetter nameU descU),
       .ok (repository.bidPatchSetter nameU descU cur)) := by
  unfold repository.EditBid
  rw [hfind, hpf]

/-- A successful bid edit preserves the ledger invariant. -/
theorem editBid_ledger {db : Database} {bidId : String}
    {p : repository.UpdateFields}
    (hInv : bidLedgerOk db bidId = true)
    (hOk : resultOk (repository.EditBid db bidId p).2 = true) :
    bidLedgerOk (repository.EditBid db bidId p).1 bidId = true := by
  cases hfind : findBid db bidId with
  | none => unfold bidLedgerOk at hInv; rw [hfind] at hInv; simp at hInv
  | some cur =>
    have hcurid : (cur.id == bidId) = true := findBid_id hfind
    unfold bidLedgerOk at hInv
    rw [hfind] at hInv
    simp only [Bool.and_eq_true, beq_iff_eq] at hInv
    obtain ⟨N, hvs, hver⟩ : ∃ N : Nat,
        bidHistVersions db bidId = seqFrom 1 N ∧ cur.version = (N : Int) + 1 :=
      ⟨(bidHistVersions db bidId).length, hInv.1, by rw [hInv.2]⟩
    cases hpf : repository.bidPatchFields p with
    | error e =>
      rw [EditBid_err hfind hpf] at hOk
      simp [resultOk] at hOk
    | ok fields =>
      obtain ⟨nameU, descU⟩ := fields
      have hmax : bidHistoryMaxVersion db cur.id = (N : Int) := by
        rw [eq_of_beq hcurid]
        exact listMax0_of_seq hvs
      rw [EditBid_ok hfind hpf]
      dsimp only
      have hfind1 : findBid
          { db with bidHistory :=
              db.bidHistory ++
                [repository.bidSnapshotRow cur (bidHistoryMaxVersion db cur.id + 1)] }
          bidId = some cur := hfind
      have hfind2 := findBid_applyBidUpdate
        (fun b : Bid =>
          (rfl : (repository.bidPatchSetter nameU descU b).id = b.id)) hfind1
      unfold bidLedgerOk
      rw [hfind2]
      have e1 : bidHistVersions
          (applyBidUpdate
            { db with bidHistory :=
                db.bidHistory ++
                  [repository.bidSnapshotRow cur (bidHistoryMaxVersion db cur.id + 1)] }
            bidId (repository.bidPatchSetter nameU descU)) bidId
          = bidHistVersions
            { db with bidHistory :=
                db.bidHistory ++
                  [repository.bidSnapshotRow cur (bidHistoryMaxVersion db cur.id + 1)] }
            bidId := rfl
      have e2 : bidHistVersions
          { db with bidHistory :=
              db.bidHistory ++
                [repository.bidSnapshotRow cur (bidHistoryMaxVersion db cur.id + 1)] }
          bidId = bidHistVersions db bidId ++ [bidHistoryMaxVersion db cur.id + 1] :=
        bidHistVersions_snoc_match _ _ _ hcurid
      rw [e1, e2, hmax, hvs]
      simp only [Bool.and_eq_true, beq_iff_eq]
      constructor
      · rw [List.length_append, seqFrom_length]
        simp only [List.length_singleton]
        rw [seqFrom_append]
        congr 2
        omega
      · show (repository.bidPatchSetter nameU descU cur).version = _
        unfold repository.bidPatchSetter
        dsimp only
        rw [hver, List.length_append, seqFrom_length]
        simp only [List.length_singleton]
        push_cast
        ring

/-- findBid is insensitive to the bid-history table. -/
theorem findBid_set_history (db : Database) (h : List BidHistoryRow) (bidId : String) :
    findBid { db with bidHistory := h } bidId = findBid db bidId := rfl

/-- Branch computation: creating a bid appends the fresh live row. -/
theorem CreateBid_eq (db : Database) (req : BidRequest) (newId : String) (now : Nat) :
    repository.CreateBid db req newId now =
      ({ db with bids := db.bids ++
          [{ id := newId, name := req.name, description := req.description,
             status := "Created", tenderId := req.tenderId,
             authorType := req.authorType, authorId := req.authorId, version := 1,
             createdAt := now }] },
       .ok { id := newId, name := req.name, description := req.description,
             status := "Created", tenderId := req.tenderId,
             authorType := req.authorType, authorId := req.authorId, version := 1,
             createdAt := now }) := rfl

/-- Inserting a fresh bid row with version 1 establishes the invariant. -/
theorem bidLedger_after_insert {db : Database} {row : Bid} {newId : String}
    (hfind : findBid db newId = none) (hhist : bidHistVersions db newId = [])
    (hrowid : row.id = newId) (hrowver : row.version = 1) :
    bidLedgerOk { db with bids := db.bids ++ [row] } newId = true := by
  unfold bidLedgerOk
  have h1 : findBid { db with bids := db.bids ++ [row] } newId = some row := by
    have h0 : (db.bids ++ [row]).find? (fun b => b.id == newId) = some row := by
      rw [List.find?_append]
      have hnone : db.bids.find? (fun b => b.id == newId) = none := hfind
      rw [hnone, Option.none_or]
      simp [List.find?, hrowid]
    exact h0
  rw [h1]
  have h2 : bidHistVersions { db with bids := db.bids ++ [row] } newId = [] := hhist
  rw [h2]
  simp [seqFrom, hrowver]

/-- Creation establishes the bid ledger invariant when the id is fresh. -/
theorem createBid_ledger {db : Database} {req : BidRequest} {newId : String}
    {now : Nat} (hfind : findBid db newId = none)
    (hhist : bidHistVersions db newId = []) :
    bidLedgerOk (repository.CreateBid db req newId now).1 newId = true := by
  rw [CreateBid_eq]
  exact bidLedger_after_insert hfind hhist rfl rfl

/-- Branch computation: bid rollback to an absent history version fails
with the raw no-rows error and leaves the database untouched. -/
theorem RollbackBid_noHist {db : Database} {bidId : String} {v : Int}
    (h : findBidHistory db bidId v = none) :
    repository.RollbackBid db bidId v = (db, .error .noRows) := by
  unfold repository.RollbackBid
  cases hf : findBid db bidId with
  | none => rfl
  | some cur => rw [h]

/-- Branch computation: a successful bid rollback copies the history row
onto the live row and records the NEW live version in history. -/
theorem RollbackBid_ok {db : Database} {bidId : String} {v : Int}
    {cur : Bid} {hrow : BidHistoryRow} (hfind : findBid db bidId = some cur)
    (hh : findBidHistory db bidId v = some hrow) :
    repository.RollbackBid db bidId v =
      ({ applyBidUpdate db bidId (repository.bidRollbackSetter hrow) with
          bidHistory := db.bidHistory ++
            [repository.bidSnapshotRow (repository.bidRollbackSetter hrow cur)
              (repository.bidRollbackSetter hrow cur).version] },
       .ok (repository.bidRollbackSetter hrow cur)) := by
  unfold repository.RollbackBid
  rw [hfind, hh]
  rfl

/-- A successful bid rollback from an invariant-satisfying state breaks
the invariant: the new live version equals the maximum history version. -/
theorem rollbackBid_ledger_break {db : Database} {bidId : String} {v : Int}
    (hInv : bidLedgerOk db bidId = true)
    (hOk : resultOk (repository.RollbackBid db bidId v).2 = true) :
    bidLedgerOk (repository.RollbackBid db bidId v).1 bidId = false ∧
    ∃ (cur t : Bid), findBid db bidId = some cur ∧
      findBid (repository.RollbackBid db bidId v).1 bidId = some t ∧
      t.version = cur.version + 1 ∧
      bidHistVersions (repository.RollbackBid db bidId v).1 bidId
        = bidHistVersions db bidId ++ [t.version] ∧
      bidHistoryMaxVersion (repository.RollbackBid db bidId v).1 bidId
        = t.version := by
  cases hfind : findBid db bidId with
  | none => unfold bidLedgerOk at hInv; rw [hfind] at hInv; simp at hInv
  | some cur =>
    have hcurid : (cur.id == bidId) = true := findBid_id hfind
    unfold bidLedgerOk at hInv
    rw [hfind] at hInv
    simp only [Bool.and_eq_true, beq_iff_eq] at hInv
    obtain ⟨N, hvs, hver⟩ : ∃ N : Nat,
        bidHistVersions db bidId = seqFrom 1 N ∧ cur.version = (N : Int) + 1 :=
      ⟨(bidHistVersions db bidId).length, hInv.1, by rw [hInv.2]⟩
    cases hh : findBidHistory db bidId v with
    | none =>
      rw [RollbackBid_noHist hh] at hOk
      simp [resultOk] at hOk
    | some hrow =>
      rw [RollbackBid_ok hfind hh]
      dsimp only
      have hfind2 : findBid
          { applyBidUpdate db bidId (repository.bidRollbackSetter hrow) with
              bidHistory := db.bidHistory ++
                [repository.bidSnapshotRow (repository.bidRollbackSetter hrow cur)
                  (repository.bidRollbackSetter hrow cur).version] }
          bidId = some (repository.bidRollbackSetter hrow cur) := by
        show findBid (applyBidUpdate db bidId (repository.bidRollbackSetter hrow))
          bidId = _
        exact findBid_applyBidUpdate
          (fun b : Bid => (rfl : (repository.bidRollbackSetter hrow b).id = b.id)) hfind
      have hvsnoc : bidHistVersions
          { applyBidUpdate db bidId (repository.bidRollbackSetter hrow) with
              bidHistory := db.bidHistory ++
                [repository.bidSnapshotRow (repository.bidRollbackSetter hrow cur)
                  (repository.bidRollbackSetter hrow cur).version] }
          bidId
          = bidHistVersions db bidId ++ [(repository.bidRollbackSetter hrow cur).version] := by
        have hid : ((repository.bidSnapshotRow (repository.bidRollbackSetter hrow cur)
            (repository.bidRollbackSetter hrow cur).version).bidId == bidId) = true := hcurid
        exact bidHistVersions_snoc_match
          (applyBidUpdate db bidId (repository.bidRollbackSetter hrow))
          (repository.bidSnapshotRow (repository.bidRollbackSetter hrow cur)
            (repository.bidRollbackSetter hrow cur).version) bidId hid
      have hversion : (repository.bidRollbackSetter hrow cur).version = (N : Int) + 2 := by
        show cur.version + 1 = (N : Int) + 2
        rw [hver]
        ring
      refine ⟨?_, cur, repository.bidRollbackSetter hrow cur, rfl, hfind2, rfl, hvsnoc, ?_⟩
      · unfold bidLedgerOk
        rw [hfind2]
        dsimp only
        rw [hvsnoc, hversion, hvs]
        have hlen : ((seqFrom 1 N ++ [(N : Int) + 2]).length) = N + 1 := by
          rw [List.length_append, seqFrom_length]
          simp
        rw [hlen]
        have hne : seqFrom 1 N ++ [(N : Int) + 2] ≠ seqFrom 1 (N + 1) := by
          rw [seqFrom_append]
          intro hcon
          have := List.append_cancel_left hcon
          simp only [List.cons.injEq] at this
          omega
        have hbeq : (seqFrom 1 N ++ [(N : Int) + 2] == seqFrom 1 (N + 1)) = false :=
          beq_eq_false_iff_ne.mpr hne
        rw [hbeq]
        simp
      · unfold bidHistoryMaxVersion
        rw [hvsnoc, hversion, hvs]
        exact listMax0_seq_append N ((N : Int) + 2) (by omega)

/-! Claim C1. -/

/-- C1: the claim asserts that after ANY sequence of
create/editContent/rollback operations the history versions are a
contiguous ascending 1..N and the live version is N+1.  Counterexample:
create tender t1, edit it once (both succeed), then roll back to
version 1 (succeeds); afterwards the history versions are [1, 3] (a gap
at 2) and the live version is 3 = max history version, not max + 1, so
the invariant is false. -/
theorem C1_counterexample :
    resultOk (repository.EditTender dbT0 "t1" patchDescr).2 = true ∧
    resultOk (repository.RollbackTender dbT1 "t1" 1).2 = true ∧
    tenderLedgerOk dbT1 "t1" = true ∧
    tenderHistVersions dbT2 "t1" = [1, 3] ∧
    (findTender dbT2 "t1").map (fun t => t.version) = some 3 ∧
    tenderLedgerOk dbT2 "t1" = false := by
  refine ⟨by decide, by decide, by decide, by decide, by decide, by decide⟩

/-- C1 (amended): for both entity kinds, creation with a fresh id
establishes the ledger invariant (history versions contiguous ascending
1..N with the live version N+1) and every successful content edit
preserves it; but a successful rollback always breaks it, because the
code inserts the restored row into history at the NEW live version:
afterwards the live version equals max(history version) instead of
max + 1. -/
theorem C1_amended :
    (∀ (db : Database) (req : TenderRequest) (newId : String) (now : Nat),
        findTender db newId = none → tenderHistVersions db newId = [] →
        tenderLedgerOk (repository.CreateTender db req newId now).1 newId = true) ∧
    (∀ (db : Database) (tenderId : String) (p : repository.UpdateFields),
        tenderLedgerOk db tenderId = true →
        resultOk (repository.EditTender db tenderId p).2 = true →
        tenderLedgerOk (repository.EditTender db tenderId p).1 tenderId = true) ∧
    (∀ (db : Database) (tenderId : String) (v : Int),
        tenderLedgerOk db tenderId = true →
        resultOk (repository.RollbackTender db tenderId v).2 = true →
        tenderLedgerOk (repository.RollbackTender db tenderId v).1 tenderId = false ∧
        ∃ t : Tender,
          findTender (repository.RollbackTender db tenderId v).1 tenderId = some t ∧
          tenderHistoryMaxVersion (repository.RollbackTender db tenderId v).1 tenderId
            = t.version) ∧
    (∀ (db : Database) (req : BidRequest) (newId : String) (now : Nat),
        findBid db newId = none → bidHistVersions db newId = [] →
        bidLedgerOk (repository.CreateBid db req newId now).1 newId = true) ∧
    (∀ (db : Database) (bidId : String) (p : repository.UpdateFields),
        bidLedgerOk db bidId = true →
        resultOk (repository.EditBid db bidId p).2 = true →
        bidLedgerOk (repository.EditBid db bidId p).1 bidId = true) ∧
    (∀ (db : Database) (bidId : String) (v : Int),
        bidLedgerOk db bidId = true →
        resultOk (repository.RollbackBid db bidId v).2 = true →
        bidLedgerOk (repository.RollbackBid db bidId v).1 bidId = false ∧
        ∃ t : Bid,
          findBid (repository.RollbackBid db bidId v).1 bidId = some t ∧
          bidHistoryMaxVersion (repository.RollbackBid db bidId v).1 bidId
            = t.version) := by
  refine ⟨?_, ?_, ?_, ?_, ?_, ?_⟩
  · intro db req newId now hfind hhist
    exact createTender_ledger hfind hhist
  · intro db tenderId p hInv hOk
    exact editTender_ledger hInv hOk
  · intro db tenderId v hInv hOk
    obtain ⟨hfail, cur, t, _, hfind', _, _, hmax'⟩ := rollbackTender_ledger_break hInv hOk
    exact ⟨hfail, t, hfind', hmax'⟩
  · intro db req newId now hfind hhist
    exact createBid_ledger hfind hhist
  · intro db bidId p hInv hOk
    exact editBid_ledger hInv hOk
  · intro db bidId v hInv hOk
    obtain ⟨hfail, cur, t, _, hfind', _, _, hmax'⟩ := rollbackBid_ledger_break hInv hOk
    exact ⟨hfail, t, hfind', hmax'⟩

/-- C1 witness: the amended theorem applied to concrete traces of both
entity kinds. -/
theorem C1_witness :
    tenderLedgerOk (repository.CreateTender baseDB reqRoad "t1" 100).1 "t1" = true ∧
    tenderLedgerOk (repository.EditTender dbT0 "t1" patchDescr).1 "t1" = true ∧
    tenderLedgerOk (repository.RollbackTender dbT1 "t1" 1).1 "t1" = false ∧
    bidLedgerOk (repository.CreateBid baseDB reqOffer "b2" 200).1 "b2" = true ∧
    bidLedgerOk (repository.EditBid dbB0 "b2" patchDescr).1 "b2" = true ∧
    bidLedgerOk (repository.RollbackBid dbB1 "b2" 1).1 "b2" = false :=
  ⟨C1_amended.1 baseDB reqRoad "t1" 100 (by decide) (by decide),
   C1_amended.2.1 dbT0 "t1" patchDescr (by decide) (by decide),
   (C1_amended.2.2.1 dbT1 "t1" 1 (by decide) (by decide)).1,
   C1_amended.2.2.2.1 baseDB reqOffer "b2" 200 (by decide) (by decide),
   C1_amended.2.2.2.2.1 dbB0 "b2" patchDescr (by decide) (by decide),
   (C1_amended.2.2.2.2.2 dbB1 "b2" 1 (by decide) (by decide)).1⟩

/-! Claim C2. -/

/-- C2: the claim asserts an all-invalid patch leaves the history ledger
unchanged.  Counterexample: an empty patch on tender t1 does fail with
the 400 "No valid fields to update" error and leaves the live row
unchanged, but the history table grows from 0 to 1 rows, because
`EditTender` inserts the snapshot before validating the patch. -/
theorem C2_counterexample :
    (repository.EditTender dbBids "t1" patchEmpty).2
      = .error (.errResp 400 "No valid fields to update") ∧
    dbBids.tenderHistory.length = 0 ∧
    (repository.EditTender dbBids "t1" patchEmpty).1.tenderHistory.length = 1 ∧
    findTender (repository.EditTender dbBids "t1" patchEmpty).1 "t1"
      = findTender dbBids "t1" := by
  refine ⟨by decide, by decide, by decide, by decide⟩

/-- C2 (amended): for both entity kinds, an edit whose patch fails
validation (only unrecognized/empty fields, or for tenders an
out-of-range serviceType) returns an InvalidInput error (HTTP 400) and
leaves every live row — content, status and version — unchanged, but it
DOES append exactly one history snapshot row (at max history
version + 1), because the snapshot insert precedes patch validation. -/
theorem C2_amended :
    (∀ (db : Database) (tenderId : String) (p : repository.UpdateFields)
        (cur : Tender) (e : RepoError), findTender db tenderId = some cur →
        repository.tenderPatchFields p = .error e →
        repository.EditTender db tenderId p =
          ({ db with tenderHistory := db.tenderHistory ++
              [{ cur with version := tenderHistoryMaxVersion db cur.id + 1 }] },
           .error e)) ∧
    (∀ (p : repository.UpdateFields) (e : RepoError),
        repository.tenderPatchFields p = .error e →
        ∃ msg, e = .errResp 400 msg) ∧
    (∀ (db : Database) (bidId : String) (p : repository.UpdateFields)
        (cur : Bid) (e : RepoError), findBid db bidId = some cur →
        repository.bidPatchFields p = .error e →
        repository.EditBid db bidId p =
          ({ db with bidHistory := db.bidHistory ++
              [repository.bidSnapshotRow cur (bidHistoryMaxVersion db cur.id + 1)] },
           .error e)) ∧
    (∀ (p : repository.UpdateFields) (e : RepoError),
        repository.bidPatchFields p = .error e →
        ∃ msg, e = .errResp 400 msg) := by
  refine ⟨?_, ?_, ?_, ?_⟩
  · intro db tenderId p cur e hfind hpf
    exact EditTender_err hfind hpf
  · intro p e h
    unfold repository.tenderPatchFields at h
    cases hst : repository.strField p.serviceType with
    | some st =>
      rw [hst] at h
      by_cases hall : repository.allowedServiceTypes st = true
      · simp [hall] at h
      · simp only [Bool.not_eq_true] at hall
        simp [hall] at h
        exact ⟨_, h.symm⟩
    | none =>
      rw [hst] at h
      by_cases hempty : ((repository.strField p.name).isNone &&
          (repository.strField p.description).isNone) = true
      · simp [hempty] at h
        exact ⟨_, h.symm⟩
      · simp only [Bool.not_eq_true] at hempty
        simp [hempty] at h
  · intro db bidId p cur e hfind hpf
    exact EditBid_err hfind hpf
  · intro p e h
    unfold repository.bidPatchFields at h
    by_cases hempty : ((repository.strField p.name).isNone &&
        (repository.strField p.description).isNone) = true
    · simp [hempty] at h
      exact ⟨_, h.symm⟩
    · simp only [Bool.not_eq_true] at hempty
      simp [hempty] at h

/-- C2 witness: the amended theorem applied to the empty patch on the
fixture tender and bid. -/
theorem C2_witness :
    repository.EditTender dbBids "t1" patchEmpty =
      ({ dbBids with tenderHistory := dbBids.tenderHistory ++
          [{ tenderT1 with version := tenderHistoryMaxVersion dbBids tenderT1.id + 1 }] },
       .error (.errResp 400 "No valid fields to update")) ∧
    repository.EditBid dbBids "b1" patchEmpty =
      ({ dbBids with bidHistory := dbBids.bidHistory ++
          [repository.bidSnapshotRow bidB1 (bidHistoryMaxVersion dbBids bidB1.id + 1)] },
       .error (.errResp 400 "no valid fields to update")) :=
  ⟨C2_amended.1 dbBids "t1" patchEmpty tenderT1
      (.errResp 400 "No valid fields to update") (by decide) (by decide),
   C2_amended.2.2.1 dbBids "b1" patchEmpty bidB1
      (.errResp 400 "no valid fields to update") (by decide) (by decide)⟩

/-! Claim C3. -/

/-- Branch computation: approving with both writes succeeding updates the
bid and closes the parent tender. -/
theorem SubmitBidDecision_ok_approved {db : Database} {bidId : String} {cur : Bid}
    (hfind : findBid db bidId = some cur) :
    repository.SubmitBidDecision db bidId "Approved" false false =
      (applyTenderUpdate
        (applyBidUpdate db bidId (fun b => { b with status := "Approved" }))
        cur.tenderId (fun t => { t with status := "Closed" }),
       .ok { cur with status := "Approved" }) := by
  unfold repository.SubmitBidDecision
  rw [hfind]
  rfl

/-- Branch computation: a forced failure of the bid-status write aborts
before any mutation. -/
theorem SubmitBidDecision_bidFail {db : Database} {bidId decision : String}
    {tenderWriteFails : Bool} {cur : Bid} (hfind : findBid db bidId = some cur) :
    repository.SubmitBidDecision db bidId decision true tenderWriteFails
      = (db, .error .execFailed) := by
  unfold repository.SubmitBidDecision
  rw [hfind]
  rfl

/-- Branch computation: a forced failure of the tender-status write
leaves the bid-status write already applied — there is no transaction. -/
theorem SubmitBidDecision_tenderFail {db : Database} {bidId : String} {cur : Bid}
    (hfind : findBid db bidId = some cur) :
    repository.SubmitBidDecision db bidId "Approved" false true
      = (applyBidUpdate db bidId (fun b => { b with status := "Approved" }),
         .error .execFailed) := by
  unfold repository.SubmitBidDecision
  rw [hfind]
  rfl

/-- C3: the claim asserts the bid-status and tender-status writes are
atomic.  Counterexample: with a forced failure of the tender-status
write, the fixture bid ends up Approved while its parent tender is still
Published — exactly the state the claim forbids. -/
theorem C3_counterexample :
    (findBid (repository.SubmitBidDecision dbBids "b1" "Approved" false true).1 "b1").map
        (fun b => b.status) = some "Approved" ∧
    (findTender (repository.SubmitBidDecision dbBids "b1" "Approved" false true).1 "t1").map
        (fun t => t.status) = some "Published" ∧
    (repository.SubmitBidDecision dbBids "b1" "Approved" false true).2
      = .error .execFailed := by
  refine ⟨by decide, by decide, by decide⟩

/-- C3 (amended): when both writes succeed, approving a bid sets its
status to Approved and forces the parent tender to Closed regardless of
the tender's prior status; a forced failure of the bid-status write
prevents the tender write (no state change); but the writes are NOT
atomic: a forced failure of the tender-status write leaves the bid
already Approved with the tender untouched. -/
theorem C3_amended :
    (∀ (db : Database) (bidId : String) (cur : Bid), findBid db bidId = some cur →
        (repository.SubmitBidDecision db bidId "Approved" false false).2
          = .ok { cur with status := "Approved" } ∧
        ∀ t ∈ (repository.SubmitBidDecision db bidId "Approved" false false).1.tenders,
          t.id = cur.tenderId → t.status = "Closed") ∧
    (∀ (db : Database) (bidId decision : String) (tenderWriteFails : Bool) (cur : Bid),
        findBid db bidId = some cur →
        repository.SubmitBidDecision db bidId decision true tenderWriteFails
          = (db, .error .execFailed)) ∧
    (∀ (db : Database) (bidId : String) (cur : Bid), findBid db bidId = some cur →
        repository.SubmitBidDecision db bidId "Approved" false true
          = (applyBidUpdate db bidId (fun b => { b with status := "Approved" }),
             .error .execFailed)) := by
  refine ⟨?_, ?_, ?_⟩
  · intro db bidId cur hfind
    rw [SubmitBidDecision_ok_approved hfind]
    refine ⟨rfl, ?_⟩
    intro t ht hid
    have ht' : t ∈ db.tenders.map
        (fun t => if t.id == cur.tenderId then { t with status := "Closed" } else t) := ht
    rcases List.mem_map.mp ht' with ⟨s, _, rfl⟩
    by_cases h : (s.id == cur.tenderId) = true
    · simp [h]
    · simp only [Bool.not_eq_true] at h
      simp only [h, Bool.false_eq_true, if_false] at hid ⊢
      exact absurd hid (by simpa using beq_eq_false_iff_ne.mp h)
  · intro db bidId decision tenderWriteFails cur hfind
    exact SubmitBidDecision_bidFail hfind
  · intro db bidId cur hfind
    exact SubmitBidDecision_tenderFail hfind

/-- C3 witness: the amended theorem applied to the fixture bid. -/
theorem C3_witness :
    (repository.SubmitBidDecision dbBids "b1" "Approved" false false).2
      = .ok { bidB1 with status := "Approved" } ∧
    (∀ t ∈ (repository.SubmitBidDecision dbBids "b1" "Approved" false false).1.tenders,
        t.id = bidB1.tenderId → t.status = "Closed") ∧
    repository.SubmitBidDecision dbBids "b1" "Rejected" true false
      = (dbBids, .error .execFailed) ∧
    repository.SubmitBidDecision dbBids "b1" "Approved" false true
      = (applyBidUpdate dbBids "b1" (fun b => { b with status := "Approved" }),
         .error .execFailed) :=
  ⟨(C3_amended.1 dbBids "b1" bidB1 (by decide)).1,
   (C3_amended.1 dbBids "b1" bidB1 (by decide)).2,
   C3_amended.2.1 dbBids "b1" "Rejected" false bidB1 (by decide),
   C3_amended.2.2 dbBids "b1" bidB1 (by decide)⟩

/-! Claim C4. -/

/-- C4: the claim asserts a rollback to an absent history version fails
with NotFound.  Counterexample: on the freshly created tender t1 (no
history at all) a rollback to version 1 does fail without mutating
anything, but the error is the raw no-rows store error, which the
rollback handlers surface as HTTP 500 — not a 404 NotFound. -/
theorem C4_counterexample :
    findTenderHistory dbT0 "t1" 1 = none ∧
    repository.RollbackTender dbT0 "t1" 1 = (dbT0, .error .noRows) ∧
    handlers.errorStatusCode RepoError.noRows = 500 ∧
    handlers.errorStatusCode RepoError.noRows ≠ 404 := by
  refine ⟨by decide, by decide, by decide, by decide⟩

/-- C4 (amended): for both entity kinds, rollback(id, v) with no history
row at exactly version v always fails and returns the database completely
unchanged (no live-row mutation, no history write) — but the failure is
the raw no-rows store error, surfaced by the handlers as HTTP 500
rather than NotFound/404. -/
theorem C4_amended :
    (∀ (db : Database) (tenderId : String) (v : Int),
        findTenderHistory db tenderId v = none →
        repository.RollbackTender db tenderId v = (db, .error .noRows)) ∧
    (∀ (db : Database) (bidId : String) (v : Int),
        findBidHistory db bidId v = none →
        repository.RollbackBid db bidId v = (db, .error .noRows)) ∧
    handlers.errorStatusCode RepoError.noRows = 500 :=
  ⟨fun _ _ _ h => RollbackTender_noHist h,
   fun _ _ _ h => RollbackBid_noHist h, rfl⟩

/-- C4 witness: the amended theorem applied to concrete rollbacks with
absent target versions. -/
theorem C4_witness :
    repository.RollbackTender dbT0 "t1" 1 = (dbT0, .error .noRows) ∧
    repository.RollbackBid dbBids "b1" 7 = (dbBids, .error .noRows) :=
  ⟨C4_amended.1 dbT0 "t1" 1 (by decide),
   C4_amended.2.1 dbBids "b1" 7 (by decide)⟩

/-! Claim C5. -/

/-- C5: for both entity kinds, a status change requested on an entity in
its terminal status (Closed for tenders, Canceled for bids) fails with
the invalid-transition error for EVERY requested target status —
including the terminal status itself — and returns the database
unchanged. -/
theorem C5_terminal :
    (∀ (db : Database) (tenderId status username : String) (cur : Tender),
        status ≠ "" → username ≠ "" →
        utils.CheckUserExists db username = true →
        utils.CheckUserAuthorized db username tenderId = true →
        findTender db tenderId = some cur → cur.status = "Closed" →
        services.UpdateTenderStatus db tenderId status username
          = (db, .error (.errResp 400 "invalid tender status"))) ∧
    (∀ (db : Database) (bidId status username : String) (cur : Bid),
        status ≠ "" → username ≠ "" →
        utils.CheckUserExists db username = true →
        utils.CheckUserAuthorizedForBid db username bidId = true →
        findBid db bidId = some cur → cur.status = "Canceled" →
        services.UpdateBidStatus db bidId status username
          = (db, .error (.errResp 400 "invalid bid status"))) := by
  constructor
  · intro db tenderId status username cur hst hus hex hauth hfind hstat
    have h1 : (status == "") = false := beq_eq_false_iff_ne.mpr hst
    have h2 : (username == "") = false := beq_eq_false_iff_ne.mpr hus
    unfold services.UpdateTenderStatus
    rw [h1, h2, hex, hauth]
    simp only [Bool.or_false, Bool.not_true, Bool.false_eq_true, if_false]
    rw [hfind]
    dsimp only
    rw [hstat]
    simp [services.allowedStatusTransitionTender, utils.ContainsTender]
  · intro db bidId status username cur hst hus hex hauth hfind hstat
    have h1 : (status == "") = false := beq_eq_false_iff_ne.mpr hst
    have h2 : (username == "") = false := beq_eq_false_iff_ne.mpr hus
    unfold services.UpdateBidStatus
    rw [h1, h2, hex, hauth]
    simp only [Bool.or_false, Bool.not_true, Bool.false_eq_true, if_false]
    rw [hfind]
    dsimp only
    rw [hstat]
    simp [services.allowedStatusTransitionBid, utils.ContainsBid]

/-- C5 witness: a closed tender and a canceled bid reject a requested
transition (to "Published", and also back to the terminal status itself
for the tender). -/
theorem C5_witness :
    services.UpdateTenderStatus { dbBids with tenders := [{ tenderT1 with status := "Closed" }] }
        "t1" "Published" "alice"
      = ({ dbBids with tenders := [{ tenderT1 with status := "Closed" }] },
         .error (.errResp 400 "invalid tender status")) ∧
    services.UpdateTenderStatus { dbBids with tenders := [{ tenderT1 with status := "Closed" }] }
        "t1" "Closed" "alice"
      = ({ dbBids with tenders := [{ tenderT1 with status := "Closed" }] },
         .error (.errResp 400 "invalid tender status")) ∧
    services.UpdateBidStatus { dbBids with bids := [{ bidB1 with status := "Canceled" }] }
        "b1" "Published" "alice"
      = ({ dbBids with bids := [{ bidB1 with status := "Canceled" }] },
         .error (.errResp 400 "invalid bid status")) :=
  ⟨C5_terminal.1 _ "t1" "Published" "alice" { tenderT1 with status := "Closed" }
      (by decide) (by decide) (by decide) (by decide) (by decide) (by decide),
   C5_terminal.1 _ "t1" "Closed" "alice" { tenderT1 with status := "Closed" }
      (by decide) (by decide) (by decide) (by decide) (by decide) (by decide),
   C5_terminal.2 _ "b1" "Published" "alice" { bidB1 with status := "Canceled" }
      (by decide) (by decide) (by decide) (by decide) (by decide) (by decide)⟩

/-! Claim C6. -/

/-- C6: frame conditions.  A status change (for both entity kinds)
rewrites ONLY the status column of the matching live row — the version
and every other column are untouched and no history row is written;
a successful content edit appends exactly one history snapshot row and
returns (and stores) a live row whose version is the old version + 1. -/
theorem C6_frame :
    (∀ (db : Database) (tenderId status : String),
        (repository.UpdateTenderStatus db tenderId status).1
          = applyTenderUpdate db tenderId (fun t => { t with status := status })) ∧
    (∀ (db : Database) (tenderId : String) (p : repository.UpdateFields),
        resultOk (repository.EditTender db tenderId p).2 = true →
        ∃ cur : Tender, findTender db tenderId = some cur ∧
          (repository.EditTender db tenderId p).1.tenderHistory
            = db.tenderHistory ++
              [{ cur with version := tenderHistoryMaxVersion db cur.id + 1 }] ∧
          ∃ t : Tender, (repository.EditTender db tenderId p).2 = .ok t ∧
            t.version = cur.version + 1 ∧
            findTender (repository.EditTender db tenderId p).1 tenderId = some t) ∧
    (∀ (db : Database) (bidId status : String),
        (repository.UpdateBidStatus db bidId status).1
          = applyBidUpdate db bidId (fun b => { b with status := status })) ∧
    (∀ (db : Database) (bidId : String) (p : repository.UpdateFields),
        resultOk (repository.EditBid db bidId p).2 = true →
        ∃ cur : Bid, findBid db bidId = some cur ∧
          (repository.EditBid db bidId p).1.bidHistory
            = db.bidHistory ++
              [repository.bidSnapshotRow cur (bidHistoryMaxVersion db cur.id + 1)] ∧
          ∃ t : Bid, (repository.EditBid db bidId p).2 = .ok t ∧
            t.version = cur.version + 1 ∧
            findBid (repository.EditBid db bidId p).1 bidId = some t) := by
  refine ⟨?_, ?_, ?_, ?_⟩
  · intro db tenderId status
    unfold repository.UpdateTenderStatus
    dsimp only
    cases findTender (applyTenderUpdate db tenderId (fun t => { t with status := status }))
      tenderId <;> rfl
  · intro db tenderId p hOk
    cases hfind : findTender db tenderId with
    | none => rw [EditTender_none hfind] at hOk; simp [resultOk] at hOk
    | some cur =>
      cases hpf : repository.tenderPatchFields p with
      | error e => rw [EditTender_err hfind hpf] at hOk; simp [resultOk] at hOk
      | ok fields =>
        obtain ⟨nameU, descU, stU⟩ := fields
        refine ⟨cur, rfl, ?_, repository.tenderPatchSetter nameU descU stU cur, ?_, rfl, ?_⟩
        · rw [EditTender_ok hfind hpf]
          rfl
        · rw [EditTender_ok hfind hpf]
        · rw [EditTender_ok hfind hpf]
          have hfind1 : findTender
              { db with tenderHistory := db.tenderHistory ++
                  [{ cur with version := tenderHistoryMaxVersion db cur.id + 1 }] }
              tenderId = some cur := hfind
          exact findTender_applyTenderUpdate
            (fun t : Tender =>
              (rfl : (repository.tenderPatchSetter nameU descU stU t).id = t.id)) hfind1
  · intro db bidId status
    unfold repository.UpdateBidStatus
    dsimp only
    cases findBid (applyBidUpdate db bidId (fun b => { b with status := status }))
      bidId <;> rfl
  · intro db bidId p hOk
    cases hfind : findBid db bidId with
    | none => rw [EditBid_none hfind] at hOk; simp [resultOk] at hOk
    | some cur =>
      cases hpf : repository.bidPatchFields p with
      | error e => rw [EditBid_err hfind hpf] at hOk; simp [resultOk] at hOk
      | ok fields =>
        obtain ⟨nameU, descU⟩ := fields
        refine ⟨cur, rfl, ?_, repository.bidPatchSetter nameU descU cur, ?_, rfl, ?_⟩
        · rw [EditBid_ok hfind hpf]
          rfl
        · rw [EditBid_ok hfind hpf]
        · rw [EditBid_ok hfind hpf]
          have hfind1 : findBid
              { db with bidHistory := db.bidHistory ++
                  [repository.bidSnapshotRow cur (bidHistoryMaxVersion db cur.id + 1)] }
              bidId = some cur := hfind
          exact findBid_applyBidUpdate
            (fun b : Bid =>
              (rfl : (repository.bidPatchSetter nameU descU b).id = b.id)) hfind1

/-- C6 witness: frame conditions applied to the fixtures. -/
theorem C6_witness :
    ((repository.UpdateTenderStatus dbBids "t1" "Closed").1
      = applyTenderUpdate dbBids "t1" (fun t => { t with status := "Closed" })) ∧
    (∃ cur : Tender, findTender dbT0 "t1" = some cur ∧
      (repository.EditTender dbT0 "t1" patchDescr).1.tenderHistory
        = dbT0.tenderHistory ++
          [{ cur with version := tenderHistoryMaxVersion dbT0 cur.id + 1 }] ∧
      ∃ t : Tender, (repository.EditTender dbT0 "t1" patchDescr).2 = .ok t ∧
        t.version = cur.version + 1 ∧
        findTender (repository.EditTender dbT0 "t1" patchDescr).1 "t1" = some t) ∧
    ((repository.UpdateBidStatus dbBids "b1" "Canceled").1
      = applyBidUpdate dbBids "b1" (fun b => { b with status := "Canceled" })) ∧
    (∃ cur : Bid, findBid dbB0 "b2" = some cur ∧
      (repository.EditBid dbB0 "b2" patchDescr).1.bidHistory
        = dbB0.bidHistory ++
          [repository.bidSnapshotRow cur (bidHistoryMaxVersion dbB0 cur.id + 1)] ∧
      ∃ t : Bid, (repository.EditBid dbB0 "b2" patchDescr).2 = .ok t ∧
        t.version = cur.version + 1 ∧
        findBid (repository.EditBid dbB0 "b2" patchDescr).1 "b2" = some t) :=
  ⟨C6_frame.1 dbBids "t1" "Closed",
   C6_frame.2.1 dbT0 "t1" patchDescr (by decide),
   C6_frame.2.2.1 dbBids "b1" "Canceled",
   C6_frame.2.2.2 dbB0 "b2" patchDescr (by decide)⟩

/-! Claim C7. -/

/-- C7: the claim asserts every mutating bid operation checks the actor
is the bid's author and gives an unauthorized actor Forbidden with no
state change.  Counterexample: eve exists but is not the author of bid
b1, yet `services.EditBid` succeeds for her and mutates the bid. -/
theorem C7_counterexample :
    utils.CheckUserExists dbBids "eve" = true ∧
    utils.CheckUserAuthorizedForBid dbBids "eve" "b1" = false ∧
    resultOk (services.EditBid dbBids "b1" "eve" patchDescr).2 = true ∧
    (findBid (services.EditBid dbBids "b1" "eve" patchDescr).1 "b1").map
        (fun b => b.description) = some "edited" ∧
    (services.EditBid dbBids "b1" "eve" patchDescr).1 ≠ dbBids := by
  refine ⟨by decide, by decide, by decide, by decide, by decide⟩

/-- C7 (amended): only the bid status change checks that the actor is
the bid's author — an existing non-author gets Forbidden (403) with no
state change; editContent, rollback, decision and feedback check only
that the actor exists (Unauthenticated/401 otherwise) and then delegate
directly to the repository mutation with no authorization check, so any
existing user can mutate any bid. -/
theorem C7_amended :
    (∀ (db : Database) (bidId status username : String),
        status ≠ "" → username ≠ "" →
        utils.CheckUserExists db username = true →
        utils.CheckUserAuthorizedForBid db username bidId = false →
        services.UpdateBidStatus db bidId status username
          = (db, .error (.errResp 403 "user is not authorized to view bids for this tender"))) ∧
    (∀ (db : Database) (bidId username : String) (p : repository.UpdateFields),
        bidId ≠ "" → username ≠ "" →
        utils.CheckUserExists db username = true →
        services.EditBid db bidId username p = repository.EditBid db bidId p) ∧
    (∀ (db : Database) (bidId username versionStr : String) (v : Int),
        utils.Atoi versionStr = some v → bidId ≠ "" → username ≠ "" →
        versionStr ≠ "" → utils.CheckUserExists db username = true →
        services.RollbackBid db bidId username versionStr
          = repository.RollbackBid db bidId v) ∧
    (∀ (db : Database) (bidId username decision : String),
        (decision = "Approved" ∨ decision = "Rejected") → username ≠ "" →
        utils.CheckUserExists db username = true →
        services.SubmitBidDecision db bidId username decision
          = repository.SubmitBidDecision db bidId decision false false) ∧
    (∀ (db : Database) (review : BidReview) (bidId bidFeedback username : String),
        bidFeedback ≠ "" → username ≠ "" → bidId ≠ "" →
        utils.CheckUserExists db username = true →
        services.SubmitBidFeedback db review bidId bidFeedback username
          = repository.SubmitBidFeedback db review bidId) := by
  refine ⟨?_, ?_, ?_, ?_, ?_⟩
  · intro db bidId status username hst hus hex hauth
    unfold services.UpdateBidStatus
    rw [beq_eq_false_iff_ne.mpr hst, beq_eq_false_iff_ne.mpr hus, hex, hauth]
    rfl
  · intro db bidId username p hbid hus hex
    unfold services.EditBid
    rw [beq_eq_false_iff_ne.mpr hus, beq_eq_false_iff_ne.mpr hbid, hex]
    rfl
  · intro db bidId username versionStr v hAtoi hbid hus hver hex
    unfold services.RollbackBid
    rw [hAtoi, beq_eq_false_iff_ne.mpr hus, beq_eq_false_iff_ne.mpr hbid,
        beq_eq_false_iff_ne.mpr hver, hex]
    rfl
  · intro db bidId username decision hdec hus hex
    have hne : decision ≠ "" := by rcases hdec with rfl | rfl <;> decide
    unfold services.SubmitBidDecision
    rw [beq_eq_false_iff_ne.mpr hne, beq_eq_false_iff_ne.mpr hus, hex]
    rcases hdec with rfl | rfl <;> rfl
  · intro db review bidId bidFeedback username hfb hus hbid hex
    unfold services.SubmitBidFeedback
    rw [beq_eq_false_iff_ne.mpr hfb, beq_eq_false_iff_ne.mpr hus,
        beq_eq_false_iff_ne.mpr hbid, hex]
    rfl

/-- C7 witness: the amended theorem applied to eve (existing non-author)
acting on bid b1. -/
theorem C7_witness :
    services.UpdateBidStatus dbBids "b1" "Published" "eve"
      = (dbBids, .error (.errResp 403 "user is not authorized to view bids for this tender")) ∧
    services.EditBid dbBids "b1" "eve" patchDescr
      = repository.EditBid dbBids "b1" patchDescr ∧
    services.RollbackBid dbBids "b1" "eve" "1" = repository.RollbackBid dbBids "b1" 1 ∧
    services.SubmitBidDecision dbBids "b1" "eve" "Approved"
      = repository.SubmitBidDecision dbBids "b1" "Approved" false false ∧
    services.SubmitBidFeedback dbBids review1 "b1" "nice work" "eve"
      = repository.SubmitBidFeedback dbBids review1 "b1" :=
  ⟨C7_amended.1 dbBids "b1" "Published" "eve" (by decide) (by decide) (by decide) (by decide),
   C7_amended.2.1 dbBids "b1" "eve" patchDescr (by decide) (by decide) (by decide),
   C7_amended.2.2.1 dbBids "b1" "eve" "1" 1 (by decide) (by decide) (by decide) (by decide)
     (by decide),
   C7_amended.2.2.2.1 dbBids "b1" "eve" "Approved" (Or.inl rfl) (by decide) (by decide),
   C7_amended.2.2.2.2 dbBids review1 "b1" "nice work" "eve" (by decide) (by decide)
     (by decide) (by decide)⟩

/-! Claim C8. -/

/-- Branch computation: rollback of an absent live row fails untouched. -/
theorem RollbackTender_noLive {db : Database} {tenderId : String} {v : Int}
    (hfind : findTender db tenderId = none) :
    repository.RollbackTender db tenderId v = (db, .error .noRows) := by
  unfold repository.RollbackTender
  rw [hfind]

/-- Branch computation: bid rollback of an absent live row fails
untouched. -/
theorem RollbackBid_noLive {db : Database} {bidId : String} {v : Int}
    (hfind : findBid db bidId = none) :
    repository.RollbackBid db bidId v = (db, .error .noRows) := by
  unfold repository.RollbackBid
  rw [hfind]

/-- C8: for both entity kinds, every successful rollback leaves the live
row's status equal to the status recorded in the target history row —
rollback restores status along with the content fields. -/
theorem C8_rollback_status :
    (∀ (db : Database) (tenderId : String) (v : Int),
        resultOk (repository.RollbackTender db tenderId v).2 = true →
        ∃ (hrow t : Tender), findTenderHistory db tenderId v = some hrow ∧
          (repository.RollbackTender db tenderId v).2 = .ok t ∧
          t.status = hrow.status ∧
          findTender (repository.RollbackTender db tenderId v).1 tenderId = some t) ∧
    (∀ (db : Database) (bidId : String) (v : Int),
        resultOk (repository.RollbackBid db bidId v).2 = true →
        ∃ (hrow : BidHistoryRow) (t : Bid), findBidHistory db bidId v = some hrow ∧
          (repository.RollbackBid db bidId v).2 = .ok t ∧
          t.status = hrow.status ∧
          findBid (repository.RollbackBid db bidId v).1 bidId = some t) := by
  constructor
  · intro db tenderId v hOk
    cases hfind : findTender db tenderId with
    | none => rw [RollbackTender_noLive hfind] at hOk; simp [resultOk] at hOk
    | some cur =>
      cases hh : findTenderHistory db tenderId v with
      | none => rw [RollbackTender_noHist hh] at hOk; simp [resultOk] at hOk
      | some hrow =>
        refine ⟨hrow, repository.tenderRollbackSetter hrow cur, rfl, ?_, rfl, ?_⟩
        · rw [RollbackTender_ok hfind hh]
        · rw [RollbackTender_ok hfind hh]
          show findTender
            (applyTenderUpdate db tenderId (repository.tenderRollbackSetter hrow)) tenderId = _
          exact findTender_applyTenderUpdate
            (fun t : Tender => (rfl : (repository.tenderRollbackSetter hrow t).id = t.id)) hfind
  · intro db bidId v hOk
    cases hfind : findBid db bidId with
    | none => rw [RollbackBid_noLive hfind] at hOk; simp [resultOk] at hOk
    | some cur =>
      cases hh : findBidHistory db bidId v with
      | none => rw [RollbackBid_noHist hh] at hOk; simp [resultOk] at hOk
      | some hrow =>
        refine ⟨hrow, repository.bidRollbackSetter hrow cur, rfl, ?_, rfl, ?_⟩
        · rw [RollbackBid_ok hfind hh]
        · rw [RollbackBid_ok hfind hh]
          show findBid
            (applyBidUpdate db bidId (repository.bidRollbackSetter hrow)) bidId = _
          exact findBid_applyBidUpdate
            (fun b : Bid => (rfl : (repository.bidRollbackSetter hrow b).id = b.id)) hfind

/-- C8 witness: successful rollbacks of the fixture tender and bid
restore the status recorded in the target history row. -/
theorem C8_witness :
    (∃ (hrow t : Tender), findTenderHistory dbT1 "t1" 1 = some hrow ∧
      (repository.RollbackTender dbT1 "t1" 1).2 = .ok t ∧
      t.status = hrow.status ∧
      findTender (repository.RollbackTender dbT1 "t1" 1).1 "t1" = some t) ∧
    (∃ (hrow : BidHistoryRow) (t : Bid), findBidHistory dbB1 "b2" 1 = some hrow ∧
      (repository.RollbackBid dbB1 "b2" 1).2 = .ok t ∧
      t.status = hrow.status ∧
      findBid (repository.RollbackBid dbB1 "b2" 1).1 "b2" = some t) :=
  ⟨C8_rollback_status.1 dbT1 "t1" 1 (by decide),
   C8_rollback_status.2 dbB1 "b2" 1 (by decide)⟩

/-! Claim C9. -/

/-- C9: a present limit that is not an integer in 1..50 is rejected with
the InvalidInput limit error; a present offset that is not a
non-negative integer is likewise rejected; the listing service then
returns 400 with the parse message and produces no results. -/
theorem C9_limit_offset :
    (∀ limitStr offsetStr : String, limitStr ≠ "" →
        (utils.Atoi limitStr = none ∨
          ∃ l : Int, utils.Atoi limitStr = some l ∧ (l ≤ 0 ∨ 50 < l)) →
        utils.ParseLimitOffset limitStr offsetStr
          = .error "invalid limit parameter, must be a positive integer [0:50]") ∧
    (∀ limitStr offsetStr : String, offsetStr ≠ "" →
        (utils.Atoi offsetStr = none ∨
          ∃ o : Int, utils.Atoi offsetStr = some o ∧ o < 0) →
        ∃ msg, utils.ParseLimitOffset limitStr offsetStr = .error msg) ∧
    (∀ (db : Database) (limitStr offsetStr username msg : String),
        (username = "" ∨ utils.CheckUserExists db username = true) →
        utils.ParseLimitOffset limitStr offsetStr = .error msg →
        services.GetUserTender db limitStr offsetStr username
          = .error (.errResp 400 msg)) := by
  have hlimit : ∀ limitStr : String, limitStr ≠ "" →
      (utils.Atoi limitStr = none ∨
        ∃ l : Int, utils.Atoi limitStr = some l ∧ (l ≤ 0 ∨ 50 < l)) →
      utils.parseLimit limitStr = none := by
    intro limitStr hne hbad
    unfold utils.parseLimit
    rw [beq_eq_false_iff_ne.mpr hne]
    simp only [Bool.false_eq_true, if_false]
    rcases hbad with hnone | ⟨l, hl, hrange⟩
    · rw [hnone]
    · rw [hl]
      have : (decide (l ≤ 0) || decide (50 < l)) = true := by
        rcases hrange with h | h <;> simp [h]
      simp [this]
  have hoffset : ∀ offsetStr : String, offsetStr ≠ "" →
      (utils.Atoi offsetStr = none ∨
        ∃ o : Int, utils.Atoi offsetStr = some o ∧ o < 0) →
      utils.parseOffset offsetStr = none := by
    intro offsetStr hne hbad
    unfold utils.parseOffset
    rw [beq_eq_false_iff_ne.mpr hne]
    simp only [Bool.false_eq_true, if_false]
    rcases hbad with hnone | ⟨o, ho, hneg⟩
    · rw [hnone]
    · rw [ho]
      simp [hneg]
  refine ⟨?_, ?_, ?_⟩
  · intro limitStr offsetStr hne hbad
    unfold utils.ParseLimitOffset
    rw [hlimit limitStr hne hbad]
  · intro limitStr offsetStr hne hbad
    unfold utils.ParseLimitOffset
    cases hL : utils.parseLimit limitStr with
    | none => exact ⟨_, rfl⟩
    | some limit =>
      rw [hoffset offsetStr hne hbad]
      exact ⟨_, rfl⟩
  · intro db limitStr offsetStr username msg husr hparse
    unfold services.GetUserTender
    have hcond : (username != "" && !(utils.CheckUserExists db username)) = false := by
      rcases husr with rfl | hex
      · rfl
      · rw [hex]
        exact Bool.and_false _
    rw [hcond]
    simp only [Bool.false_eq_true, if_false]
    rw [hparse]

/-- C9 witness: an out-of-range limit, a negative offset and a
non-numeric limit through the tender listing service. -/
theorem C9_witness :
    utils.ParseLimitOffset "99" "0"
      = .error "invalid limit parameter, must be a positive integer [0:50]" ∧
    (∃ msg, utils.ParseLimitOffset "5" "-2" = .error msg) ∧
    services.GetUserTender dbBids "abc" "0" "alice"
      = .error (.errResp 400 "invalid limit parameter, must be a positive integer [0:50]") :=
  ⟨C9_limit_offset.1 "99" "0" (by decide)
      (Or.inr ⟨99, by decide, Or.inr (by decide)⟩),
   C9_limit_offset.2.1 "5" "-2" (by decide) (Or.inr ⟨-2, by decide, by decide⟩),
   C9_limit_offset.2.2 dbBids "abc" "0" "alice"
      "invalid limit parameter, must be a positive integer [0:50]"
      (Or.inr (by decide)) (by decide)⟩

/-! Claim C10. -/

/-- The `GetUserTender` row loop aborts the whole listing with 403 as
soon as any row of the page fails the responsibility check. -/
theorem scanUserTenders_forbidden {db : Database} {username : String} :
    ∀ (l : List Tender) (t : Tender), t ∈ l →
      utils.CheckUserResponsibleForOrganization db username t.organizationId = false →
      repository.scanUserTenders db username l
        = .error (.errResp 403
            "you do not have permission to view tenders for this organization") := by
  intro l
  induction l with
  | nil => intro t ht _; simp at ht
  | cons h rest ih =>
    intro t ht hresp
    unfold repository.scanUserTenders
    by_cases hh : utils.CheckUserResponsibleForOrganization db username h.organizationId = true
    · rw [hh]
      simp only [Bool.not_true, Bool.false_eq_true, if_false]
      have ht' : t ∈ rest := by
        rcases List.mem_cons.mp ht with rfl | hmem
        · rw [hresp] at hh
          exact absurd hh (by simp)
        · exact hmem
      rw [ih t ht' hresp]
    · simp only [Bool.not_eq_true] at hh
      rw [hh]
      rfl

/-- C10: if any tender on the requested page (the user's tenders,
ordered by name and paginated) belongs to an organization the user is
not responsible for, the entire listing fails with Forbidden — it does
not silently omit that tender. -/
theorem C10_listing_forbidden :
    ∀ (db : Database) (limit offset : Int) (username : String) (t : Tender),
      t ∈ repository.paginate
          (repository.orderByName
            (db.tenders.filter (fun x => x.creatorUsername == username)))
          limit offset →
      utils.CheckUserResponsibleForOrganization db username t.organizationId = false →
      repository.GetUserTender db limit offset username
        = .error (.errResp 403
            "you do not have permission to view tenders for this organization") := by
  intro db limit offset username t hmem hresp
  unfold repository.GetUserTender
  exact scanUserTenders_forbidden _ t hmem hresp

/-- C10 witness: alice's tender under organization o2 (where she is not
responsible) makes her whole listing fail with 403. -/
theorem C10_witness :
    tenderForeign ∈ repository.paginate
        (repository.orderByName
          (dbForeign.tenders.filter (fun x => x.creatorUsername == "alice")))
        5 0 ∧
    repository.GetUserTender dbForeign 5 0 "alice"
      = .error (.errResp 403
          "you do not have permission to view tenders for this organization") :=
  ⟨by decide,
   C10_listing_forbidden dbForeign 5 0 "alice" tenderForeign (by decide) (by decide)⟩
